import Mathlib

/-!
Verification development for the courseflow repository.

This file gives a shallow embedding of the pieces of the codebase that the
frozen claims talk about:

* the best-effort JSON extraction / repair pipelines of the serverless
  functions (`generate-course`, `generate-roadmap-content`,
  `generate-lesson-recommendations`),
* the HTTP handler control flow of those functions (field validation,
  credential check, upstream failure handling, fallback substitution),
* the lesson-recommendation defaulting / clamping and fallback templates,
* the client-side hooks (`useCourses.ts`: progress computation and
  write-back, course deletion ordering, ordered fan-out inserts and
  ordered selects) and the quiz answer validator of `QuizModal.tsx`.

Strings are modelled as `List Char` (JavaScript's UTF-16 code-unit view and
the Lean code-point view agree on every input used here; the blanket
non-ASCII removal of the course extractor is modelled as removing every
code point above 0x7F, which coincides with the source's per-code-unit
removal). JavaScript numbers are modelled with exact arithmetic (`ℚ`,
`ℤ`); JSON numbers are kept as a normalized decimal mantissa/exponent
pair. `JSON.parse` is modelled by the executable parser `parseJsonL`
below; JavaScript object semantics (insertion order, last duplicate key
wins) are mirrored by `setField`.
-/

namespace CourseFlow

/-! ## Characters and small string utilities -/

/-- The opening curly bracket character. -/
def lbrace : Char := Char.ofNat 123

/-- The closing curly bracket character. -/
def rbrace : Char := Char.ofNat 125

/-- The backquote character used by Markdown code fences. -/
def backquote : Char := Char.ofNat 96

/-- The ASCII apostrophe character. -/
def apoChar : Char := Char.ofNat 39

/-- JavaScript whitespace (the `\s` regex class and `String.prototype.trim`):
ASCII whitespace, NBSP, BOM, and the Unicode space separators. -/
def isJsWsB (c : Char) : Bool :=
  (9 ≤ c.toNat && c.toNat ≤ 13) || c.toNat = 32 || c.toNat = 0xA0 ||
  c.toNat = 0x1680 || (0x2000 ≤ c.toNat && c.toNat ≤ 0x200A) ||
  c.toNat = 0x2028 || c.toNat = 0x2029 || c.toNat = 0x202F ||
  c.toNat = 0x205F || c.toNat = 0x3000 || c.toNat = 0xFEFF

/-- Whitespace accepted between JSON tokens by `JSON.parse`. -/
def isJsonWsB (c : Char) : Bool :=
  c.toNat = 32 || c.toNat = 9 || c.toNat = 10 || c.toNat = 13

/-- Characters removed by the control-character cleanup regex
`[\u0000-\u001F\u007F-\u009F]`. -/
def isCtrlB (c : Char) : Bool :=
  c.toNat ≤ 0x1F || (0x7F ≤ c.toNat && c.toNat ≤ 0x9F)

/-- List-of-characters version of `String.prototype.trim`. -/
def trimL (s : List Char) : List Char :=
  (((s.dropWhile isJsWsB).reverse.dropWhile isJsWsB)).reverse

/-- Whether `pat` is an initial segment of `s` (`String.prototype.startsWith`). -/
def startsWithL : List Char → List Char → Bool
  | [], _ => true
  | _ :: _, [] => false
  | p :: ps, c :: cs => c = p && startsWithL ps cs

/-- Whether `pat` occurs contiguously inside `s` (`String.prototype.includes`). -/
def containsL (pat : List Char) : List Char → Bool
  | [] => startsWithL pat []
  | c :: cs => startsWithL pat (c :: cs) || containsL pat cs

/-- ASCII lower-casing of a character (the inputs the code feeds to
`toLowerCase` are ASCII). -/
def lowerChar (c : Char) : Char :=
  if 65 ≤ c.toNat ∧ c.toNat ≤ 90 then Char.ofNat (c.toNat + 32) else c

/-- ASCII `String.prototype.toLowerCase` on a string. -/
def lowerStr (s : String) : String := String.mk (s.data.map lowerChar)

/-- `String.prototype.trim` on a string. -/
def jsTrim (s : String) : String := String.mk (trimL s.data)

/-- `a.includes(b)` on strings. -/
def includesStr (s pat : String) : Bool := containsL pat.data s.data

/-! ## JSON values -/

/-- A JSON value as produced by `JSON.parse`. Numbers are held as a
normalized decimal mantissa and power-of-ten exponent. -/
inductive Json where
  | null : Json
  | bool (b : Bool) : Json
  | num (mantissa : Int) (exp10 : Int) : Json
  | str (s : String) : Json
  | arr (elems : List Json) : Json
  | obj (fields : List (String × Json)) : Json

/-- Set a field of a JavaScript object: overwrite in place when the key is
already present (keeping insertion order), append otherwise. -/
def setField : List (String × Json) → String → Json → List (String × Json)
  | [], k, v => [(k, v)]
  | (k0, v0) :: rest, k, v =>
    if k0 = k then (k0, v) :: rest else (k0, v0) :: setField rest k v

/-- Field lookup on a JSON value; `none` on non-objects and absent keys. -/
def Json.getField : Json → String → Option Json
  | .obj fs, k => fs.lookup k
  | _, _ => none

/-! ## A model of `JSON.parse` -/

/-- Numeric value of an ASCII digit, `none` for other characters. -/
def digitVal (c : Char) : Option Nat :=
  if 48 ≤ c.toNat ∧ c.toNat ≤ 57 then some (c.toNat - 48) else none

/-- Numeric value of an ASCII hex digit. -/
def hexVal (c : Char) : Option Nat :=
  if 48 ≤ c.toNat ∧ c.toNat ≤ 57 then some (c.toNat - 48)
  else if 65 ≤ c.toNat ∧ c.toNat ≤ 70 then some (c.toNat - 55)
  else if 97 ≤ c.toNat ∧ c.toNat ≤ 102 then some (c.toNat - 87)
  else none

/-- Read exactly four hex digits. -/
def readHex4 : List Char → Option (Nat × List Char)
  | a :: b :: c :: d :: rest => do
    let va ← hexVal a
    let vb ← hexVal b
    let vc ← hexVal c
    let vd ← hexVal d
    pure (((va * 16 + vb) * 16 + vc) * 16 + vd, rest)
  | _ => none

/-- Decode the body of a JSON string literal (after the opening quote),
returning the decoded characters and the input after the closing quote.
Surrogate pairs written with two `\u` escapes are combined; a lone
surrogate escape is rejected. -/
def parseStrBody : Nat → List Char → List Char → Option (List Char × List Char)
  | 0, _, _ => none
  | _ + 1, _, [] => none
  | fuel + 1, acc, c :: rest =>
    if c = '"' then some (acc.reverse, rest)
    else if c = '\\' then
      match rest with
      | [] => none
      | e :: rest2 =>
        if e = '"' then parseStrBody fuel ('"' :: acc) rest2
        else if e = '\\' then parseStrBody fuel ('\\' :: acc) rest2
        else if e = '/' then parseStrBody fuel ('/' :: acc) rest2
        else if e = 'b' then parseStrBody fuel (Char.ofNat 8 :: acc) rest2
        else if e = 'f' then parseStrBody fuel (Char.ofNat 12 :: acc) rest2
        else if e = 'n' then parseStrBody fuel (Char.ofNat 10 :: acc) rest2
        else if e = 'r' then parseStrBody fuel (Char.ofNat 13 :: acc) rest2
        else if e = 't' then parseStrBody fuel (Char.ofNat 9 :: acc) rest2
        else if e = 'u' then
          match readHex4 rest2 with
          | none => none
          | some (n, rest3) =>
            if 0xD800 ≤ n ∧ n ≤ 0xDBFF then
              match rest3 with
              | u :: v :: rest4 =>
                if u = '\\' ∧ v = 'u' then
                  match readHex4 rest4 with
                  | some (m, rest5) =>
                    if 0xDC00 ≤ m ∧ m ≤ 0xDFFF then
                      parseStrBody fuel
                        (Char.ofNat (0x10000 + (n - 0xD800) * 0x400 + (m - 0xDC00)) :: acc) rest5
                    else none
                  | none => none
                else none
              | _ => none
            else if 0xDC00 ≤ n ∧ n ≤ 0xDFFF then none
            else parseStrBody fuel (Char.ofNat n :: acc) rest3
        else none
    else if c.toNat < 0x20 then none
    else parseStrBody fuel (c :: acc) rest

/-- Interpret a list of decimal digits. -/
def digitsToNat (acc : Nat) : List Char → Nat
  | [] => acc
  | c :: rest => digitsToNat (acc * 10 + (digitVal c).getD 0) rest

/-- Strip factors of ten from a mantissa, moving them into the exponent. -/
def stripTens : Nat → Nat → Int → Nat × Int
  | 0, m, e => (m, e)
  | f + 1, m, e => if m ≠ 0 ∧ m % 10 = 0 then stripTens f (m / 10) (e + 1) else (m, e)

/-- Build a normalized JSON number from sign, mantissa, and exponent. -/
def mkNum (neg : Bool) (m : Nat) (e : Int) : Json :=
  if m = 0 then Json.num 0 0
  else
    let p := stripTens m m e
    Json.num (if neg then -(p.1 : Int) else (p.1 : Int)) p.2

/-- Whether a character is an ASCII digit. -/
def isDigitB (c : Char) : Bool := 48 ≤ c.toNat && c.toNat ≤ 57

/-- Parse a JSON number literal following the `JSON.parse` grammar
(no leading zeros, optional fraction and exponent). -/
def parseNumber (s : List Char) : Option (Json × List Char) :=
  let (neg, s1) :=
    match s with
    | c :: rest => if c = '-' then (true, rest) else (false, s)
    | [] => (false, s)
  let ds := s1.takeWhile isDigitB
  let s2 := s1.dropWhile isDigitB
  match ds with
  | [] => none
  | d0 :: dtail =>
    if d0 = '0' ∧ dtail ≠ [] then none
    else
      let intPart := digitsToNat 0 ds
      let (fracDs, s3) :=
        match s2 with
        | c :: rest =>
          if c = '.' then (rest.takeWhile isDigitB, rest.dropWhile isDigitB)
          else ([], s2)
        | [] => ([], s2)
      if s2 ≠ [] ∧ s2.headD ' ' = '.' ∧ fracDs = [] then none
      else
        let mant := intPart * 10 ^ fracDs.length + digitsToNat 0 fracDs
        let baseExp : Int := -(fracDs.length : Int)
        match s3 with
        | c :: rest =>
          if c = 'e' ∨ c = 'E' then
            let (eneg, r1) :=
              match rest with
              | x :: r => if x = '-' then (true, r) else if x = '+' then (false, r) else (false, rest)
              | [] => (false, rest)
            let eds := r1.takeWhile isDigitB
            let r2 := r1.dropWhile isDigitB
            if eds = [] then none
            else
              let ev : Int := (digitsToNat 0 eds : Int)
              some (mkNum neg mant (baseExp + (if eneg then -ev else ev)), r2)
          else some (mkNum neg mant baseExp, s3)
        | [] => some (mkNum neg mant baseExp, s3)

/-- Skip JSON inter-token whitespace. -/
def skipJsonWs (s : List Char) : List Char := s.dropWhile isJsonWsB

mutual

/-- Parse a single JSON value (leading whitespace allowed), returning the
value and the rest of the input. -/
def parseVal : Nat → List Char → Option (Json × List Char)
  | 0, _ => none
  | fuel + 1, s =>
    match skipJsonWs s with
    | 'n' :: 'u' :: 'l' :: 'l' :: r => some (.null, r)
    | 't' :: 'r' :: 'u' :: 'e' :: r => some (.bool true, r)
    | 'f' :: 'a' :: 'l' :: 's' :: 'e' :: r => some (.bool false, r)
    | c :: r =>
      if c = '"' then
        match parseStrBody (r.length + 1) [] r with
        | some (cs, rest) => some (.str (String.mk cs), rest)
        | none => none
      else if c = lbrace then parseObjAux fuel (skipJsonWs r) [] true
      else if c = '[' then parseArrAux fuel (skipJsonWs r) [] true
      else parseNumber (c :: r)
    | [] => none

/-- Parse the members of a JSON array after the opening bracket. `first`
marks whether no element has been read yet (so a closing bracket is an
empty array). -/
def parseArrAux : Nat → List Char → List Json → Bool → Option (Json × List Char)
  | 0, _, _, _ => none
  | fuel + 1, s, acc, first =>
    match s with
    | c :: r =>
      if c = ']' ∧ first then some (.arr acc.reverse, r)
      else
        match parseVal fuel s with
        | none => none
        | some (v, rest) =>
          match skipJsonWs rest with
          | d :: r2 =>
            if d = ',' then parseArrAux fuel r2 (v :: acc) false
            else if d = ']' then some (.arr (v :: acc).reverse, r2)
            else none
          | [] => none
    | [] => none

/-- Parse the members of a JSON object after the opening brace, mirroring
`JSON.parse` (later duplicate keys overwrite earlier ones in place). -/
def parseObjAux : Nat → List Char → List (String × Json) → Bool → Option (Json × List Char)
  | 0, _, _, _ => none
  | fuel + 1, s, acc, first =>
    match s with
    | c :: r =>
      if c = rbrace ∧ first then some (.obj acc, r)
      else if c = '"' then
        match parseStrBody (r.length + 1) [] r with
        | none => none
        | some (key, rest) =>
          match skipJsonWs rest with
          | ':' :: r2 =>
            match parseVal fuel r2 with
            | none => none
            | some (v, rest2) =>
              let acc2 := setField acc (String.mk key) v
              match skipJsonWs rest2 with
              | d :: r3 =>
                if d = ',' then
                  match skipJsonWs r3 with
                  | e :: r4 =>
                    if e = '"' then parseObjAux fuel (e :: r4) acc2 false else none
                  | [] => none
                else if d = rbrace then some (.obj acc2, r3)
                else none
              | [] => none
          | _ => none
      else none
    | [] => none

end

/-- The model of `JSON.parse`: parse one value and require only whitespace
after it; `none` models a thrown `SyntaxError`. -/
def parseJsonL (s : List Char) : Option Json :=
  match parseVal (s.length + 1) s with
  | some (v, rest) => if skipJsonWs rest = [] then some v else none
  | none => none

/-! ## The extraction pipelines

The cleaning steps shared by the handlers, in source order. Each global
regex replacement is modelled by a left-to-right scan that, exactly like
the JavaScript engine, emits the replacement and continues scanning after
the matched text. -/

/-- Length of `dropWhile` never exceeds the length of the input. -/
theorem length_dropWhile_le (p : Char → Bool) :
    ∀ l : List Char, (l.dropWhile p).length ≤ l.length := by
  intro l
  induction l with
  | nil => simp [List.dropWhile]
  | cons c rest ih =>
    by_cases h : p c
    · simp only [List.dropWhile, h]
      exact Nat.le_succ_of_le ih
    · simp [List.dropWhile, h]

/-- The opening marker of a tagged code fence. -/
def fenceJson : List Char := [backquote, backquote, backquote, 'j', 's', 'o', 'n']

/-- The bare code fence marker. -/
def fencePlain : List Char := [backquote, backquote, backquote]

/-- The regex `/^<tag>\s*/` applied after a successful `startsWith` test:
drop the tag and any following whitespace. -/
def dropFenceOpen (tag : List Char) (s : List Char) : List Char :=
  (s.drop tag.length).dropWhile isJsWsB

/-- The regex `/\s*` followed by a closing fence anchored at the end: if the
string ends with a fence marker, remove it together with the whitespace run
just before it. -/
def stripFenceClose (s : List Char) : List Char :=
  let r := s.reverse
  if startsWithL fencePlain r then ((r.drop 3).dropWhile isJsWsB).reverse else s

/-- The two fence-stripping conditionals of the handlers, in source order. -/
def stripFences (s : List Char) : List Char :=
  let s1 := if startsWithL fenceJson s then stripFenceClose (dropFenceOpen fenceJson s) else s
  if startsWithL fencePlain s1 then stripFenceClose (dropFenceOpen fencePlain s1) else s1

/-- Drop everything before the first opening brace when that brace is not
already at position 0 (`indexOf` plus the `jsonStart > 0` guard). -/
def dropBeforeBrace (s : List Char) : List Char :=
  match s.findIdx? (fun c => c = lbrace) with
  | some i => if 0 < i then s.drop i else s
  | none => s

/-- Position of the last occurrence of `c`, as `lastIndexOf`. -/
def lastIdxOf (c : Char) (s : List Char) : Option Nat :=
  match s.reverse.findIdx? (fun d => d = c) with
  | some j => some (s.length - 1 - j)
  | none => none

/-- Drop everything after the last closing brace when it is neither at
position 0 nor the final character (`lastIndexOf` plus the
`jsonEnd > 0 && jsonEnd < length - 1` guard). -/
def dropAfterBrace (s : List Char) : List Char :=
  match lastIdxOf rbrace s with
  | some i => if 0 < i ∧ i < s.length - 1 then s.take (i + 1) else s
  | none => s

/-- Remove control characters (`[\u0000-\u001F\u007F-\u009F]`). -/
def removeCtrl (s : List Char) : List Char := s.filter (fun c => !(isCtrlB c))

/-- Single-character image of the smart-punctuation normalization of the
course extractor (quotes, apostrophes, dashes, ellipsis). The four global
replacements of the source act on pairwise disjoint characters whose images
contain none of the pattern characters, so the sequential passes coincide
with this one simultaneous pass. -/
def smartChar (c : Char) : List Char :=
  if c.toNat = 0x201C ∨ c.toNat = 0x201D then ['"']
  else if c.toNat = 0x2018 ∨ c.toNat = 0x2019 then [apoChar]
  else if c.toNat = 0x2013 ∨ c.toNat = 0x2014 then ['-']
  else if c.toNat = 0x2026 then ['.', '.', '.']
  else [c]

/-- Smart-punctuation normalization of the course extractor. -/
def normalizeSmart (s : List Char) : List Char := (s.map smartChar).flatten

/-- Smart-punctuation normalization of the roadmap extractor (quotes,
apostrophes, dashes; no ellipsis replacement). -/
def normalizeSmartBasic (s : List Char) : List Char :=
  s.map fun c =>
    if c.toNat = 0x201C ∨ c.toNat = 0x201D then '"'
    else if c.toNat = 0x2018 ∨ c.toNat = 0x2019 then apoChar
    else if c.toNat = 0x2013 ∨ c.toNat = 0x2014 then '-'
    else c

/-- Remove the hiragana/katakana and main CJK ranges
(`[぀-ゟ゠-ヿ一-龯]`). -/
def removeJapanese (s : List Char) : List Char :=
  s.filter fun c =>
    !((0x3040 ≤ c.toNat && c.toNat ≤ 0x30FF) || (0x4E00 ≤ c.toNat && c.toNat ≤ 0x9FAF))

/-- Remove every remaining non-ASCII code point (`[\u0080-￿]` on UTF-16
code units removes astral characters as well, since both of their surrogate
units fall in the range). -/
def removeNonAscii (s : List Char) : List Char := s.filter (fun c => c.toNat < 0x80)

/-- Lookahead used by the whitespace-bridging repairs: the maximal
whitespace run of `l` together with the first non-matching character after
it and the remainder. `none` when `l` is whitespace to its end. -/
def wsThen (l : List Char) : Option (List Char × Char × List Char) :=
  match l.dropWhile isJsWsB with
  | d :: r => some (l.takeWhile isJsWsB, d, r)
  | [] => none

/-- A successful whitespace lookahead consumes at least one character. -/
theorem wsThen_length {l w : List Char} {d : Char} {r : List Char}
    (h : wsThen l = some (w, d, r)) : r.length < l.length := by
  unfold wsThen at h
  have h1 : (l.dropWhile isJsWsB).length ≤ l.length := length_dropWhile_le isJsWsB l
  rcases hd : l.dropWhile isJsWsB with _ | ⟨x, xs⟩ <;> rw [hd] at h h1
  · simp at h
  · simp only [Option.some.injEq, Prod.mk.injEq] at h
    obtain ⟨-, -, rfl⟩ := h
    simp only [List.length_cons] at h1
    omega

/-- Generic left-to-right global regex replacement: at each position try
`step`; on a match emit the replacement text and continue after the matched
text, otherwise emit the current character and move one position right.
The fuel argument is a structural-recursion bound; every caller supplies
`length + 1`, which `scanRepair_fuel_irrel` shows is always sufficient. -/
def scanRepair (step : List Char → Option (List Char × List Char)) :
    Nat → List Char → List Char
  | 0, s => s
  | _ + 1, [] => []
  | fuel + 1, c :: rest =>
    match step (c :: rest) with
    | some (emit, rest2) => emit ++ scanRepair step fuel rest2
    | none => c :: scanRepair step fuel rest

/-- A step function makes progress when every match consumes at least one
character. -/
def StepProgress (step : List Char → Option (List Char × List Char)) : Prop :=
  ∀ s emit rest2, step s = some (emit, rest2) → rest2.length < s.length

/-- With enough fuel the scanner's result does not depend on the exact fuel. -/
theorem scanRepair_fuel_irrel {step : List Char → Option (List Char × List Char)}
    (hstep : StepProgress step) :
    ∀ (f1 : Nat), ∀ {f2 : Nat} {s : List Char}, s.length < f1 → s.length < f2 →
      scanRepair step f1 s = scanRepair step f2 s := by
  intro f1
  induction f1 with
  | zero => intro f2 s h1 _; omega
  | succ a ih =>
    intro f2 s h1 h2
    cases f2 with
    | zero => omega
    | succ b =>
      cases s with
      | nil => rfl
      | cons c rest =>
        simp only [scanRepair]
        cases hs : step (c :: rest) with
        | some pr =>
          obtain ⟨emit, rest2⟩ := pr
          have hlt := hstep _ _ _ hs
          simp only [List.length_cons] at hlt h1 h2
          dsimp only
          rw [@ih b rest2 (by omega) (by omega)]
        | none =>
          dsimp only
          simp only [List.length_cons] at h1 h2
          rw [@ih b rest (by omega) (by omega)]

/-- The match attempted at each position by the trailing-comma repair
`,(\s*[}\])` → `$1`: a comma followed by whitespace and a closing brace or
bracket is replaced by the whitespace and closer alone. -/
def commaStep (s : List Char) : Option (List Char × List Char) :=
  match s with
  | c :: rest =>
    if c = ',' then
      match wsThen rest with
      | some (w, d, r3) => if d = rbrace ∨ d = ']' then some (w ++ [d], r3) else none
      | none => none
    else none
  | [] => none

/-- The trailing-comma match consumes at least one character. -/
theorem commaStep_progress : StepProgress commaStep := by
  intro s emit rest2 h
  unfold commaStep at h
  cases s with
  | nil => simp at h
  | cons c rest =>
    by_cases hc : c = ','
    · simp only [hc, if_pos rfl] at h
      cases hw : wsThen rest with
      | none => rw [hw] at h; simp at h
      | some pr =>
        obtain ⟨w, d, r3⟩ := pr
        rw [hw] at h
        by_cases hd : d = rbrace ∨ d = ']'
        · simp only [hd, if_true, Option.some.injEq, Prod.mk.injEq] at h
          obtain ⟨-, rfl⟩ := h
          have := wsThen_length hw
          simp only [List.length_cons]
          omega
        · simp [hd] at h
    · simp [hc] at h

/-- The global replacement `,(\s*[}\])` → `$1`. -/
def fixTrailingCommas (s : List Char) : List Char :=
  scanRepair commaStep (s.length + 1) s

/-- The match attempted at each position by `}(\s*){` → `},$1{`: a comma
is inserted between a closing and an opening brace separated only by
whitespace. -/
def braceStep (s : List Char) : Option (List Char × List Char) :=
  match s with
  | c :: rest =>
    if c = rbrace then
      match wsThen rest with
      | some (w, d, r3) =>
        if d = lbrace then some (rbrace :: ',' :: (w ++ [lbrace]), r3) else none
      | none => none
    else none
  | [] => none

/-- The brace-pair match consumes at least one character. -/
theorem braceStep_progress : StepProgress braceStep := by
  intro s emit rest2 h
  unfold braceStep at h
  cases s with
  | nil => simp at h
  | cons c rest =>
    by_cases hc : c = rbrace
    · simp only [hc, if_pos rfl] at h
      cases hw : wsThen rest with
      | none => rw [hw] at h; simp at h
      | some pr =>
        obtain ⟨w, d, r3⟩ := pr
        rw [hw] at h
        by_cases hd : d = lbrace
        · simp only [hd, if_pos rfl, Option.some.injEq, Prod.mk.injEq] at h
          obtain ⟨-, rfl⟩ := h
          have := wsThen_length hw
          simp only [List.length_cons]
          omega
        · simp [hd] at h
    · simp [hc] at h

/-- The global replacement `}(\s*){` → `},$1{`. -/
def fixBracePairs (s : List Char) : List Char :=
  scanRepair braceStep (s.length + 1) s

/-- The match attempted at each position by `](\s*)\[` → `],$1[`. -/
def bracketStep (s : List Char) : Option (List Char × List Char) :=
  match s with
  | c :: rest =>
    if c = ']' then
      match wsThen rest with
      | some (w, d, r3) =>
        if d = '[' then some (']' :: ',' :: (w ++ ['[']), r3) else none
      | none => none
    else none
  | [] => none

/-- The bracket-pair match consumes at least one character. -/
theorem bracketStep_progress : StepProgress bracketStep := by
  intro s emit rest2 h
  unfold bracketStep at h
  cases s with
  | nil => simp at h
  | cons c rest =>
    by_cases hc : c = ']'
    · simp only [hc, if_pos rfl] at h
      cases hw : wsThen rest with
      | none => rw [hw] at h; simp at h
      | some pr =>
        obtain ⟨w, d, r3⟩ := pr
        rw [hw] at h
        by_cases hd : d = '['
        · simp only [hd, if_pos rfl, Option.some.injEq, Prod.mk.injEq] at h
          obtain ⟨-, rfl⟩ := h
          have := wsThen_length hw
          simp only [List.length_cons]
          omega
        · simp [hd] at h
    · simp [hc] at h

/-- The global replacement `](\s*)\[` → `],$1[`. -/
def fixBracketPairs (s : List Char) : List Char :=
  scanRepair bracketStep (s.length + 1) s

/-- Characters excluded from the second and third capture groups of the
quote-repair regex (`[^",:}\]]`). -/
def qfExcl (c : Char) : Bool := c = '"' || c = ',' || c = ':' || c = rbrace || c = ']'

/-- Split off the maximal run of non-quote characters, returning it and the
input after the quote that follows. -/
def splitAtQuote (l : List Char) : Option (List Char × List Char) :=
  match l.dropWhile (fun c => c ≠ '"') with
  | _ :: r => some (l.takeWhile (fun c => c ≠ '"'), r)
  | [] => none

/-- A successful quote split consumes at least one character. -/
theorem splitAtQuote_length {l g r : List Char}
    (h : splitAtQuote l = some (g, r)) : r.length < l.length := by
  unfold splitAtQuote at h
  have h1 : (l.dropWhile (fun c => c ≠ '"')).length ≤ l.length :=
    length_dropWhile_le _ l
  rcases hd : l.dropWhile (fun c => c ≠ '"') with _ | ⟨x, xs⟩ <;> rw [hd] at h h1
  · simp at h
  · simp only [Option.some.injEq, Prod.mk.injEq] at h
    obtain ⟨-, rfl⟩ := h
    simp only [List.length_cons] at h1
    omega

/-- Split off the maximal run of characters allowed in the second and third
capture groups, returning the run, the first excluded character after it,
and the remainder. -/
def splitGroup (l : List Char) : Option (List Char × Char × List Char) :=
  match l.dropWhile (fun c => !(qfExcl c)) with
  | d :: r => some (l.takeWhile (fun c => !(qfExcl c)), d, r)
  | [] => none

/-- A successful group split leaves a strictly shorter remainder. -/
theorem splitGroup_length {l g : List Char} {d : Char} {r : List Char}
    (h : splitGroup l = some (g, d, r)) : r.length < l.length := by
  unfold splitGroup at h
  have h1 : (l.dropWhile (fun c => !(qfExcl c))).length ≤ l.length :=
    length_dropWhile_le _ l
  rcases hd : l.dropWhile (fun c => !(qfExcl c)) with _ | ⟨x, xs⟩ <;> rw [hd] at h h1
  · simp at h
  · simp only [Option.some.injEq, Prod.mk.injEq] at h
    obtain ⟨-, -, rfl⟩ := h
    simp only [List.length_cons] at h1
    omega

/-- Attempt to match the tail of `"([^"]*)"([^",:}\]]*)"([^",:}\]]*)":`
immediately after an opening quote. Each starred group is followed by a
character excluded from it, so the greedy match is deterministic. Returns
the three captured groups and the input after the matched text. -/
def quoteMatch (rest : List Char) :
    Option (List Char × List Char × List Char × List Char) :=
  match splitAtQuote rest with
  | none => none
  | some (g1, r1) =>
    match splitGroup r1 with
    | none => none
    | some (g2, d2, r2) =>
      if d2 = '"' then
        match splitGroup r2 with
        | none => none
        | some (g3, d3, r3) =>
          if d3 = '"' then
            match r3 with
            | c5 :: r4 => if c5 = ':' then some (g1, g2, g3, r4) else none
            | [] => none
          else none
      else none

/-- A successful quote match leaves a strictly shorter remainder. -/
theorem quoteMatch_length {rest g1 g2 g3 r4 : List Char}
    (h : quoteMatch rest = some (g1, g2, g3, r4)) : r4.length < rest.length := by
  unfold quoteMatch at h
  rcases h1 : splitAtQuote rest with _ | ⟨a1, r1⟩ <;> rw [h1] at h <;> dsimp only at h
  · simp at h
  · have l1 := splitAtQuote_length h1
    rcases h2 : splitGroup r1 with _ | ⟨a2, d2, r2⟩ <;> rw [h2] at h <;> dsimp only at h
    · simp at h
    · have l2 := splitGroup_length h2
      by_cases hd2 : d2 = '"'
      · simp only [hd2, if_true] at h
        rcases h3 : splitGroup r2 with _ | ⟨a3, d3, r3⟩ <;> rw [h3] at h <;> dsimp only at h
        · simp at h
        · have l3 := splitGroup_length h3
          by_cases hd3 : d3 = '"'
          · simp only [hd3, if_true] at h
            rcases r3 with _ | ⟨c4, r4x⟩
            · simp at h
            · dsimp only at h
              by_cases hc4 : c4 = ':'
              · simp only [hc4, if_true, Option.some.injEq, Prod.mk.injEq] at h
                obtain ⟨-, -, -, rfl⟩ := h
                simp only [List.length_cons] at l3
                omega
              · simp [hc4] at h
          · simp [hd3] at h
      · simp [hd2] at h

/-- The match attempted at each position by the quote-escape repair
`"([^"]*)"([^",:}\]]*)"([^",:}\]]*)":` → `"$1\"$2\"$3":`. -/
def quoteStep (s : List Char) : Option (List Char × List Char) :=
  match s with
  | c :: rest =>
    if c = '"' then
      match quoteMatch rest with
      | some (g1, g2, g3, r4) =>
        some ('"' :: g1 ++ '\\' :: '"' :: g2 ++ '\\' :: '"' :: g3 ++ ['"', ':'], r4)
      | none => none
    else none
  | [] => none

/-- The quote-repair match consumes at least one character. -/
theorem quoteStep_progress : StepProgress quoteStep := by
  intro s emit rest2 h
  unfold quoteStep at h
  cases s with
  | nil => simp at h
  | cons c rest =>
    by_cases hc : c = '"'
    · simp only [hc, if_pos rfl] at h
      cases hq : quoteMatch rest with
      | none => rw [hq] at h; simp at h
      | some pr =>
        obtain ⟨g1, g2, g3, r4⟩ := pr
        rw [hq] at h
        simp only [Option.some.injEq, Prod.mk.injEq] at h
        obtain ⟨-, rfl⟩ := h
        have := quoteMatch_length hq
        simp only [List.length_cons]
        omega
    · simp [hc] at h

/-- The global quote-escape repair. -/
def fixQuotes (s : List Char) : List Char :=
  scanRepair quoteStep (s.length + 1) s

/-- The full cleaning pipeline of the `generate-course` handler, in source
order: trim, fence stripping, brace-boundary trimming, control-character
removal, smart-punctuation normalization, CJK removal, blanket non-ASCII
removal, and the three speculative syntax repairs. -/
def cleanCourseContent (raw : List Char) : List Char :=
  fixQuotes (fixBracketPairs (fixBracePairs (fixTrailingCommas
    (removeNonAscii (removeJapanese (normalizeSmart (removeCtrl
      (dropAfterBrace (dropBeforeBrace (stripFences (trimL raw)))))))))))

/-- The structured-response extractor of `generate-course`: clean, then
parse; `none` is the signal that makes the caller fall back. -/
def extractCourseL (raw : List Char) : Option Json := parseJsonL (cleanCourseContent raw)

/-- String-level wrapper for the course extractor. -/
def extractCourse (raw : String) : Option Json := extractCourseL raw.data

/-- The cleaning pipeline of the `generate-roadmap-content` handler: trim,
fences, brace boundaries, control characters, smart punctuation (quotes,
apostrophes, dashes only) — no ellipsis step, no non-ASCII removal and no
syntax repairs. -/
def cleanRoadmapContent (raw : List Char) : List Char :=
  normalizeSmartBasic (removeCtrl (dropAfterBrace (dropBeforeBrace (stripFences (trimL raw)))))

/-- The structured-response extractor of `generate-roadmap-content`. -/
def extractRoadmapL (raw : List Char) : Option Json := parseJsonL (cleanRoadmapContent raw)

/-- String-level wrapper for the roadmap extractor. -/
def extractRoadmap (raw : String) : Option Json := extractRoadmapL raw.data

/-- The cleaning pipeline of the `generate-lesson-recommendations` handler:
trim, fences and brace boundaries only. -/
def cleanRecsContent (raw : List Char) : List Char :=
  dropAfterBrace (dropBeforeBrace (stripFences (trimL raw)))

/-- The structured-response extractor of `generate-lesson-recommendations`. -/
def extractRecsL (raw : List Char) : Option Json := parseJsonL (cleanRecsContent raw)

/-! ## JavaScript truthiness and number coercion

The recommendation mapping applies `||` defaulting to raw parsed JSON
values and then runs them through `Math.max` / `Math.min`, which coerce
with `ToNumber`. These are modelled exactly: a JavaScript number is `NaN`,
`±Infinity`, or a finite value (kept exact in `ℚ`, as elsewhere). -/

/-- JavaScript truthiness of a JSON value (`undefined` is the absent-field
case handled by the callers; `NaN` cannot come out of `JSON.parse`). -/
def jsonTruthy : Json → Bool
  | .null => false
  | .bool b => b
  | .num m _ => m ≠ 0
  | .str s => s ≠ ""
  | .arr _ => true
  | .obj _ => true

/-- A JavaScript number: `NaN`, an infinity, or a finite value. -/
inductive JsNum where
  | nan : JsNum
  | posInf : JsNum
  | negInf : JsNum
  | fin (q : ℚ) : JsNum
deriving DecidableEq

/-- `Math.max` on two arguments: `NaN` absorbs, otherwise the larger. -/
def jsMax : JsNum → JsNum → JsNum
  | .nan, _ => .nan
  | _, .nan => .nan
  | .posInf, _ => .posInf
  | _, .posInf => .posInf
  | .negInf, b => b
  | a, .negInf => a
  | .fin a, .fin b => .fin (max a b)

/-- `Math.min` on two arguments: `NaN` absorbs, otherwise the smaller. -/
def jsMin : JsNum → JsNum → JsNum
  | .nan, _ => .nan
  | _, .nan => .nan
  | .negInf, _ => .negInf
  | _, .negInf => .negInf
  | .posInf, b => b
  | a, .posInf => a
  | .fin a, .fin b => .fin (min a b)

/-- Parse the optional exponent part of a string numeric literal and
require the input to be fully consumed. -/
def parseExpQ (base : ℚ) : List Char → Option ℚ
  | [] => some base
  | c :: r =>
    if c = 'e' ∨ c = 'E' then
      let (neg, r1) :=
        match r with
        | x :: xs => if x = '-' then (true, xs) else if x = '+' then (false, xs) else (false, r)
        | [] => (false, r)
      let ds := r1.takeWhile isDigitB
      let r2 := r1.dropWhile isDigitB
      if ds = [] ∨ r2 ≠ [] then none
      else some (base * (10 : ℚ) ^ (if neg then -(digitsToNat 0 ds : ℤ) else (digitsToNat 0 ds : ℤ)))
    else none

/-- Parse an unsigned decimal string numeric literal
(`digits [. digits] [exp]` or `. digits [exp]`), entire input consumed.
Unlike JSON numbers, leading zeros and a trailing dot are allowed. -/
def parseDecQ (l : List Char) : Option ℚ :=
  let intDs := l.takeWhile isDigitB
  let r1 := l.dropWhile isDigitB
  if intDs = [] then
    match r1 with
    | '.' :: r2 =>
      let fr := r2.takeWhile isDigitB
      let r3 := r2.dropWhile isDigitB
      if fr = [] then none
      else parseExpQ ((digitsToNat 0 fr : ℚ) / (10 : ℚ) ^ fr.length) r3
    | _ => none
  else
    match r1 with
    | '.' :: r2 =>
      let fr := r2.takeWhile isDigitB
      let r3 := r2.dropWhile isDigitB
      parseExpQ ((digitsToNat 0 intDs : ℚ) + (digitsToNat 0 fr : ℚ) / (10 : ℚ) ^ fr.length) r3
    | _ => parseExpQ (digitsToNat 0 intDs : ℚ) r1

/-- Digit value below a radix, `none` for other characters. -/
def radixVal (radix : Nat) (c : Char) : Option Nat :=
  match hexVal c with
  | some v => if v < radix then some v else none
  | none => none

/-- Interpret a non-empty digit string in the given radix, `none` when any
character is out of range. -/
def radixToNat (radix : Nat) : List Char → Option Nat
  | [] => none
  | ds => ds.foldl (fun acc c =>
      match acc, radixVal radix c with
      | some a, some v => some (a * radix + v)
      | _, _ => none) (some 0)

/-- `ToNumber` on a string (the `StringNumericLiteral` grammar): trim,
then the empty string is 0, an unsigned `0x`/`0o`/`0b` literal is read in
its radix, and otherwise an optionally signed `Infinity` or decimal
literal; anything else is `NaN`. -/
def strToNumberL (l0 : List Char) : JsNum :=
  let l := trimL l0
  match l with
  | [] => .fin 0
  | '0' :: x :: rest =>
    if x = 'x' ∨ x = 'X' then
      match radixToNat 16 rest with
      | some n => .fin (n : ℚ)
      | none => .nan
    else if x = 'o' ∨ x = 'O' then
      match radixToNat 8 rest with
      | some n => .fin (n : ℚ)
      | none => .nan
    else if x = 'b' ∨ x = 'B' then
      match radixToNat 2 rest with
      | some n => .fin (n : ℚ)
      | none => .nan
    else
      match parseDecQ l with
      | some q => .fin q
      | none => .nan
  | c :: rest =>
    let (neg, body) :=
      if c = '-' then (true, rest) else if c = '+' then (false, rest) else (false, l)
    if body = ('I' :: 'n' :: 'f' :: 'i' :: 'n' :: 'i' :: 't' :: 'y' :: []) then
      if neg then .negInf else .posInf
    else
      match parseDecQ body with
      | some q => .fin (if neg then -q else q)
      | none => .nan

/-- `ToNumber` on a string value. -/
def strToNumber (s : String) : JsNum := strToNumberL s.data

/-- `ToNumber` on a JSON value, with fuel for the nested-array case (a
singleton array converts through its joined string, which unwraps one
nesting level per step, so the array-nesting depth always suffices as
fuel). An array of two or more elements joins with commas and is never
numeric; `null` inside a join renders as the empty string. -/
def toNumberA : Nat → Json → JsNum
  | 0, _ => .nan
  | fuel + 1, j =>
    match j with
    | .null => .fin 0
    | .bool b => .fin (if b then 1 else 0)
    | .num m e => .fin ((m : ℚ) * (10 : ℚ) ^ e)
    | .str s => strToNumber s
    | .obj _ => .nan
    | .arr [] => .fin 0
    | .arr (_ :: _ :: _) => .nan
    | .arr [x] =>
      match x with
      | .null => .fin 0
      | .bool _ => .nan
      | .num m e => .fin ((m : ℚ) * (10 : ℚ) ^ e)
      | .str s => strToNumber s
      | .obj _ => .nan
      | .arr ys => toNumberA fuel (.arr ys)

/-- The array-nesting depth along first elements, an upper bound on the
number of singleton-array unwraps `ToNumber` can perform. -/
def singletonDepth : Json → Nat
  | .arr (x :: _) => singletonDepth x + 1
  | _ => 0

/-- `ToNumber` on a JSON value. -/
def toNumber (j : Json) : JsNum := toNumberA (singletonDepth j + 1) j

/-- The JavaScript defaulting idiom `value || fallback` on a raw parsed
JSON field: a truthy value is kept, a falsy or absent one is replaced. -/
def jsonOr (o : Option Json) (d : Json) : Json :=
  match o with
  | some v => if jsonTruthy v then v else d
  | none => d

/-- `value || fallback` followed by numeric use: a truthy field is kept for
coercion by the numeric operator, a falsy or absent one becomes the
(numeric) default. -/
def jsNumOr (o : Option Json) (d : JsNum) : JsNum :=
  match o with
  | some v => if jsonTruthy v then toNumber v else d
  | none => d

/-! ## HTTP handler models

The handlers are `serve` callbacks whose only external effects are the
request body, the `GROQ_API_KEY` environment variable, and one `fetch` to
the inference endpoint. The request fields are modelled as `Option String`
(`none` for an absent key), the credential as `Option String`, and the
inference call as a `GroqCall` value. A thrown `Error` is rendered by the
shared catch block as `{ error: message, details: toString }`. -/

/-- Outcome of the single `fetch` to the chat-completion endpoint:
either a non-ok HTTP status (with error body text) or the trimmed message
content of a successful response. -/
inductive GroqCall where
  | failure (status : Nat) (body : String)
  | success (content : String)

/-- An HTTP response: status code and JSON body. -/
structure Resp where
  status : Nat
  body : Json

/-- JavaScript truthiness of an optional string field (`undefined`, `null`
and the empty string are falsy). -/
def truthyS : Option String → Bool
  | some s => s ≠ ""
  | none => false

/-- The catch-block response `{ error: error.message, details: error.toString() }`
with HTTP status 500. -/
def errResp (msg : String) : Resp :=
  { status := 500
    body := Json.obj [("error", Json.str msg), ("details", Json.str ("Error: " ++ msg))] }

/-- The hard-coded fallback course substituted by `generate-course` when
the model text cannot be coerced into the expected structure, transcribed
from the handler's catch block. -/
def fallbackCourseJson (courseTitle : String) : Json :=
  Json.obj [("modules", Json.arr [
    Json.obj [
      ("module_title", Json.str ("Fundamentals of " ++ courseTitle)),
      ("lessons", Json.arr [
        Json.obj [
          ("lesson_title", Json.str ("Introduction to " ++ courseTitle)),
          ("objectives", Json.arr [
            Json.str ("Understand the core concepts of " ++ courseTitle),
            Json.str "Learn fundamental principles and terminology",
            Json.str "Identify key components and their relationships",
            Json.str "Apply basic knowledge in practical scenarios"]),
          ("content", Json.str ("Welcome to your comprehensive " ++ courseTitle ++
            " course! This lesson introduces you to the fundamental concepts and principles that form the foundation of " ++
            courseTitle ++
            ". We\u0027ll explore the essential terminology, key components, and basic principles that you\u0027ll build upon throughout this course. Understanding these fundamentals is crucial for your success in more advanced topics. Through practical examples and step-by-step explanations, you\u0027ll gain confidence and establish a solid foundation for your learning journey.")),
          ("quiz", Json.arr [
            Json.obj [
              ("question", Json.str ("What is the primary focus of learning " ++ courseTitle ++ "?")),
              ("options", Json.arr [Json.str "Basic understanding only",
                Json.str "Practical application", Json.str "Theoretical knowledge",
                Json.str "All comprehensive aspects"]),
              ("answer", Json.str "All comprehensive aspects")],
            Json.obj [
              ("question", Json.str ("Why is it important to understand fundamentals in " ++ courseTitle ++ "?")),
              ("options", Json.arr [Json.str "It\u0027s not important",
                Json.str "Builds foundation for advanced concepts",
                Json.str "Just for beginners", Json.str "Only for testing"]),
              ("answer", Json.str "Builds foundation for advanced concepts")]]),
          ("free_resources", Json.arr [
            Json.obj [("title", Json.str (courseTitle ++ " Complete Guide")),
              ("url", Json.str "https://example.com/comprehensive-guide")],
            Json.obj [("title", Json.str (courseTitle ++ " Fundamentals Tutorial")),
              ("url", Json.str "https://example.com/fundamentals")]])]])],
    Json.obj [
      ("module_title", Json.str ("Intermediate " ++ courseTitle ++ " Concepts")),
      ("lessons", Json.arr [
        Json.obj [
          ("lesson_title", Json.str ("Building Your " ++ courseTitle ++ " Skills")),
          ("objectives", Json.arr [
            Json.str "Develop intermediate-level competency",
            Json.str "Apply concepts in practical situations",
            Json.str "Solve common problems and challenges",
            Json.str "Prepare for advanced topic areas"]),
          ("content", Json.str ("Now that you have a solid foundation, this lesson focuses on building your intermediate skills in " ++
            courseTitle ++
            ". We\u0027ll explore more complex concepts, practical applications, and real-world scenarios. You\u0027ll learn to solve common problems, implement best practices, and develop the confidence to tackle more challenging aspects of " ++
            courseTitle ++
            ". This lesson bridges the gap between basic understanding and advanced mastery.")),
          ("quiz", Json.arr [
            Json.obj [
              ("question", Json.str ("What characterizes intermediate-level " ++ courseTitle ++ " skills?")),
              ("options", Json.arr [Json.str "Basic knowledge only",
                Json.str "Practical problem-solving ability", Json.str "Advanced theory",
                Json.str "Expert-level mastery"]),
              ("answer", Json.str "Practical problem-solving ability")],
            Json.obj [
              ("question", Json.str ("How do intermediate skills prepare you for advanced topics?")),
              ("options", Json.arr [Json.str "They don\u0027t",
                Json.str "Build confidence and practical experience",
                Json.str "Only theoretical knowledge", Json.str "Replace advanced learning"]),
              ("answer", Json.str "Build confidence and practical experience")]]),
          ("free_resources", Json.arr [
            Json.obj [("title", Json.str (courseTitle ++ " Practical Examples")),
              ("url", Json.str "https://example.com/practical-examples")],
            Json.obj [("title", Json.str (courseTitle ++ " Problem Solving Guide")),
              ("url", Json.str "https://example.com/problem-solving")]])]])]])]

/-- The structural validation of the course handler:
`courseContent.modules` must exist and be an array (a JavaScript array is
truthy, so the two source conditions collapse to exactly this test). -/
def modulesArrayOk (j : Json) : Bool :=
  match j.getField "modules" with
  | some (Json.arr _) => true
  | _ => false

/-- Whether the model text yields a parsed value carrying a top-level
`modules` array; when this is false the handler's catch block substitutes
the fallback course. -/
def parsedModulesOk (raw : String) : Bool :=
  match extractCourse raw with
  | some j => modulesArrayOk j
  | none => false

/-- The course content the handler ends up responding with: the extracted
and validated value, or the hard-coded fallback. -/
def generateCourseContent (courseTitle raw : String) : Json :=
  match extractCourse raw with
  | some j => if modulesArrayOk j then j else fallbackCourseJson courseTitle
  | none => fallbackCourseJson courseTitle

/-- The `generate-course` handler: field validation, credential check,
inference call, extraction with fallback, and the success response. -/
def generateCourseServe (title audienceLevel duration : Option String)
    (groqApiKey : Option String) (groq : GroqCall) : Resp :=
  if ¬ (truthyS title ∧ truthyS audienceLevel ∧ truthyS duration) then
    errResp "Missing required fields: courseTitle, audienceLevel, and duration are required"
  else if ¬ truthyS groqApiKey then
    errResp "GROQ_API_KEY environment variable is not configured"
  else
    match groq with
    | .failure status body => errResp ("Groq API error: " ++ toString status ++ " - " ++ body)
    | .success content =>
      { status := 200
        body := Json.obj [("success", Json.bool true),
          ("courseContent", generateCourseContent (title.getD "") content)] }

/-- The hard-coded fallback project list of `generate-roadmap-content`. -/
def fallbackProjectsJson (courseTitle : String) : Json :=
  Json.obj [("projects", Json.arr [
    Json.obj [
      ("title", Json.str (courseTitle ++ " Foundation Project")),
      ("difficulty", Json.str "Beginner"),
      ("duration", Json.str "1-2 weeks"),
      ("description", Json.str ("Build a fundamental project that demonstrates core concepts from " ++ courseTitle)),
      ("tasks", Json.arr [
        Json.str ("Set up project structure for " ++ courseTitle),
        Json.str "Implement basic functionality",
        Json.str "Add user interface components",
        Json.str "Test core features",
        Json.str "Document your learning process",
        Json.str "Create project presentation"])]])]

/-- The hard-coded fallback opportunity list of `generate-roadmap-content`. -/
def fallbackOpportunitiesJson (courseTitle : String) : Json :=
  Json.obj [("opportunities", Json.arr [
    Json.obj [
      ("title", Json.str (courseTitle ++ " Specialist")),
      ("type", Json.str "Freelance"),
      ("company", Json.str "Various Clients"),
      ("location", Json.str "Remote"),
      ("salary", Json.str "$25-50/hour"),
      ("description", Json.str ("Apply your " ++ courseTitle ++ " skills to help clients solve problems")),
      ("requirements", Json.arr [
        Json.str ("Proficiency in " ++ courseTitle),
        Json.str "Strong communication skills",
        Json.str "Problem-solving abilities",
        Json.str "Portfolio of relevant work"]),
      ("website", Json.str "https://www.upwork.com")]])]

/-- The `generate-roadmap-content` handler. -/
def roadmapServe (courseTitle category contentType : Option String)
    (groqApiKey : Option String) (groq : GroqCall) : Resp :=
  if ¬ (truthyS courseTitle ∧ truthyS category ∧ truthyS contentType) then
    errResp "Missing required fields: courseTitle, category, and contentType are required"
  else if ¬ truthyS groqApiKey then
    errResp "GROQ_API_KEY environment variable is not configured"
  else
    match groq with
    | .failure status _ => errResp ("Groq API error: " ++ toString status)
    | .success content =>
      let generated :=
        match extractRoadmap content with
        | some j => j
        | none =>
          if contentType = some "projects" then fallbackProjectsJson (courseTitle.getD "")
          else fallbackOpportunitiesJson (courseTitle.getD "")
      { status := 200
        body := Json.obj [("success", Json.bool true), ("content", generated)] }

/-- The `validate-quiz-answer` handler. -/
def validateQuizServe (userAnswer question correctAnswer : Option String)
    (groqApiKey : Option String) (groq : GroqCall) : Resp :=
  if ¬ (truthyS userAnswer ∧ truthyS question ∧ truthyS correctAnswer) then
    errResp "Missing required fields: userAnswer, question, and correctAnswer are required"
  else if ¬ truthyS groqApiKey then
    errResp "GROQ_API_KEY environment variable is not configured"
  else
    match groq with
    | .failure status _ => errResp ("Groq API error: " ++ toString status)
    | .success content =>
      { status := 200
        body := Json.obj [("success", Json.bool true),
          ("isCorrect", Json.bool (lowerStr (jsTrim content) = "true")),
          ("userAnswer", Json.str (userAnswer.getD "")),
          ("correctAnswer", Json.str (correctAnswer.getD ""))] }

/-- The `ai-tutor-chat` handler: the request fields feed only the prompt
strings; the handler performs no field validation, throws (HTTP 500 with
error/details) on a missing credential or non-ok inference status, and
otherwise answers 200 with the model text. -/
def aiTutorChatServe (message context courseId userId : Option String)
    (groqApiKey : Option String) (groq : GroqCall) : Resp :=
  if ¬ truthyS groqApiKey then
    errResp "GROQ_API_KEY environment variable is not configured"
  else
    match groq with
    | .failure status body => errResp ("Groq API error: " ++ toString status ++ " - " ++ body)
    | .success content =>
      { status := 200
        body := Json.obj [("success", Json.bool true), ("response", Json.str content)] }

/-! ## The adaptive-feedback function -/

/-- UTF-8 bytes of a code point. -/
def utf8Bytes (c : Char) : List Nat :=
  let n := c.toNat
  if n < 0x80 then [n]
  else if n < 0x800 then [0xC0 + n / 64, 0x80 + n % 64]
  else if n < 0x10000 then [0xE0 + n / 4096, 0x80 + n / 64 % 64, 0x80 + n % 64]
  else [0xF0 + n / 262144, 0x80 + n / 4096 % 64, 0x80 + n / 64 % 64, 0x80 + n % 64]

/-- Upper-case hexadecimal digit. -/
def hexDigitUpper (n : Nat) : Char :=
  if n < 10 then Char.ofNat (48 + n) else Char.ofNat (55 + n)

/-- Characters `encodeURIComponent` leaves unescaped: ASCII alphanumerics
and `- _ . ! ~ * ' ( )`. -/
def uriUnescaped (c : Char) : Bool :=
  (48 ≤ c.toNat && c.toNat ≤ 57) || (65 ≤ c.toNat && c.toNat ≤ 90) ||
  (97 ≤ c.toNat && c.toNat ≤ 122) ||
  c = '-' || c = '_' || c = '.' || c = '!' || c = '~' || c = '*' ||
  c = apoChar || c = '(' || c = ')'

/-- `encodeURIComponent`: percent-encode the UTF-8 bytes of every escaped
character. -/
def encodeURIComponent (s : String) : String :=
  String.mk ((s.data.map fun c =>
    if uriUnescaped c then [c]
    else ((utf8Bytes c).map fun b =>
      ['%', hexDigitUpper (b / 16), hexDigitUpper (b % 16)]).flatten).flatten)

/-- The adaptive-feedback handler's cleaning steps are the same fence and
brace-boundary trimming as the recommendation handler's. -/
def extractFeedbackL (raw : List Char) : Option Json := parseJsonL (cleanRecsContent raw)

/-- The rule-based fallback feedback substituted when the model text cannot
be parsed or lacks a truthy `motivational_message`, transcribed from the
handler's catch block. -/
def fallbackFeedbackJson (scorePercentage : ℤ) (confidence_level : ℚ)
    (struggle_topics : List String) : Json :=
  Json.obj [
    ("weaknesses", Json.arr ((struggle_topics.take 3).map Json.str)),
    ("recommended_resources", Json.arr [
      Json.obj [
        ("title", Json.str "Review Core Concepts"),
        ("url", Json.str ("https://www.youtube.com/results?search_query=" ++
          encodeURIComponent
            (match struggle_topics.head? with
             | some s => if s ≠ "" then s else "study tips"
             | none => "study tips"))),
        ("type", Json.str "Video Tutorial")]]),
    ("should_advance", Json.bool (decide (70 ≤ scorePercentage) && decide ((6 : ℚ) ≤ confidence_level))),
    ("review_topics", Json.arr ((struggle_topics.take 2).map Json.str)),
    ("motivational_message", Json.str
      (if 80 ≤ scorePercentage then "Great job! You\u0027re making excellent progress."
       else if 60 ≤ scorePercentage then
         "Good work! Keep practicing to strengthen your understanding."
       else "Don\u0027t worry, learning takes time. Focus on the basics and you\u0027ll improve!")),
    ("next_focus_areas", Json.arr
      ((if 0 < struggle_topics.length then struggle_topics.take 3
        else ["Review fundamentals", "Practice exercises"]).map Json.str))]

/-- The `generate-adaptive-feedback` handler: the request fields are
destructured without validation; a missing credential or non-ok inference
status throws (HTTP 500 with error/details); a successful call is cleaned
and parsed, a parse failure or a missing/falsy `motivational_message`
substitutes the rule-based fallback, and the response is HTTP 200. -/
def adaptiveFeedbackServe (quiz_score confidence_level : ℚ)
    (struggle_topics : List String) (groqApiKey : Option String) (groq : GroqCall) : Resp :=
  if ¬ truthyS groqApiKey then
    errResp "GROQ_API_KEY environment variable is not configured"
  else
    let scorePercentage : ℤ := round (quiz_score / 10 * 100)
    match groq with
    | .failure status body => errResp ("Groq API error: " ++ toString status ++ " - " ++ body)
    | .success content =>
      let feedbackContent :=
        match extractFeedbackL content.data with
        | some j =>
          if (match j.getField "motivational_message" with
              | some v => jsonTruthy v
              | none => false) then j
          else fallbackFeedbackJson scorePercentage confidence_level struggle_topics
        | none => fallbackFeedbackJson scorePercentage confidence_level struggle_topics
      { status := 200
        body := Json.obj [("success", Json.bool true), ("feedback", feedbackContent)] }

/-! ## The lesson-recommendation function -/

/-- A recommendation as returned to the client. The `|| default` idiom
keeps any truthy model-supplied value, so the defaulted fields are raw JSON
values, not necessarily strings; the relevance score is a JavaScript
number (possibly `NaN` via coercion). -/
structure RecOut where
  id : Json
  title : Json
  description : Json
  difficulty : Json
  estimatedTime : Json
  category : Json
  relevanceScore : JsNum
  source : String

/-- The per-recommendation defaulting map of `generateAIRecommendations`
(`now` stands for `Date.now()`, `index` for the array index) applied to the
raw parsed recommendation object: every field receives a default via `||`
(field access on a non-object yields the absent case), `difficulty` falls
back to `"Intermediate"`, and `relevanceScore` is
`Math.min(Math.max(score || 0.8, 0.7), 1.0)`, where `Math.max`/`Math.min`
coerce the kept raw value with `ToNumber`. -/
def mapAIRec (courseTitle : String) (now index : Nat) (rec : Json) : RecOut :=
  { id := jsonOr (rec.getField "id")
      (Json.str ("ai-rec-" ++ toString now ++ "-" ++ toString index))
    title := jsonOr (rec.getField "title")
      (Json.str ("Advanced " ++ courseTitle ++ " Concepts"))
    description := jsonOr (rec.getField "description")
      (Json.str ("Advanced concepts building on your " ++ courseTitle ++ " learning"))
    difficulty := jsonOr (rec.getField "difficulty") (Json.str "Intermediate")
    estimatedTime := jsonOr (rec.getField "estimatedTime") (Json.str "45 min")
    category := jsonOr (rec.getField "category") (Json.str "Advanced Study")
    relevanceScore :=
      jsMin (jsMax (jsNumOr (rec.getField "relevanceScore") (JsNum.fin 0.8)) (JsNum.fin 0.7))
        (JsNum.fin 1.0)
    source := "ai-generated" }

/-- A fallback lesson template. -/
structure TemplateT where
  title : String
  description : String
  difficulty : String
  estimatedTime : String
  category : String
  baseRelevance : ℚ

/-- The keyword-based course category detection of the recommendation
function. -/
def analyzeCourseCategory (courseTitle : String) : String :=
  let t := lowerStr courseTitle
  if includesStr t "spanish" || includesStr t "espa√±ol" then "spanish"
  else if includesStr t "react" || includesStr t "javascript" || includesStr t "web" ||
    includesStr t "next" then "webdev"
  else if includesStr t "python" || includesStr t "programming" ||
    includesStr t "algorithm" then "programming"
  else if includesStr t "data" || includesStr t "machine learning" ||
    includesStr t "ai" then "datascience"
  else if includesStr t "design" || includesStr t "ui" || includesStr t "ux" then "design"
  else "general"

/-- The fallback lesson templates, keyed by category; categories without an
entry (`datascience`, `design`) fall back to the `general` list exactly as
the source's `lessonTemplates[category] || lessonTemplates.general`. -/
def getLessonTemplatesForCategory (category : String) : List TemplateT :=
  if category = "spanish" then
    [{ title := "Advanced Spanish Conversation Techniques"
       description := "Master natural conversation flow and idiomatic expressions"
       difficulty := "Advanced", estimatedTime := "45 min", category := "Speaking"
       baseRelevance := 0.9 },
     { title := "Spanish Grammar Deep Dive: Subjunctive Mood"
       description := "Understand and practice the complex subjunctive mood"
       difficulty := "Advanced", estimatedTime := "60 min", category := "Grammar"
       baseRelevance := 0.8 },
     { title := "Spanish Cultural Context and Usage"
       description := "Learn cultural nuances behind language patterns"
       difficulty := "Intermediate", estimatedTime := "40 min", category := "Culture"
       baseRelevance := 0.75 }]
  else if category = "webdev" then
    [{ title := "Advanced React Patterns and Performance"
       description := "Custom hooks, context patterns, and optimization techniques"
       difficulty := "Advanced", estimatedTime := "75 min", category := "Frontend"
       baseRelevance := 0.9 },
     { title := "Modern JavaScript ES2024 Features"
       description := "Latest JavaScript features and advanced usage patterns"
       difficulty := "Advanced", estimatedTime := "50 min", category := "JavaScript"
       baseRelevance := 0.8 },
     { title := "Web Performance and Optimization"
       description := "Core Web Vitals, advanced caching, and performance monitoring"
       difficulty := "Advanced", estimatedTime := "65 min", category := "Performance"
       baseRelevance := 0.85 }]
  else if category = "programming" then
    [{ title := "Advanced Algorithm Design and Analysis"
       description := "Complex algorithms, time complexity optimization, and advanced data structures"
       difficulty := "Advanced", estimatedTime := "90 min", category := "Algorithms"
       baseRelevance := 0.9 },
     { title := "System Design and Architecture"
       description := "Scalable systems, microservices, and distributed computing"
       difficulty := "Advanced", estimatedTime := "80 min", category := "System Design"
       baseRelevance := 0.85 },
     { title := "Advanced Programming Patterns"
       description := "Design patterns, functional programming, and code architecture"
       difficulty := "Advanced", estimatedTime := "70 min", category := "Patterns"
       baseRelevance := 0.8 }]
  else
    [{ title := "Advanced Critical Thinking"
       description := "Complex problem-solving and analytical reasoning techniques"
       difficulty := "Advanced", estimatedTime := "50 min", category := "Thinking"
       baseRelevance := 0.8 },
     { title := "Professional Communication Mastery"
       description := "Advanced presentation and leadership communication skills"
       difficulty := "Advanced", estimatedTime := "45 min", category := "Communication"
       baseRelevance := 0.7 },
     { title := "Strategic Learning and Development"
       description := "Meta-learning techniques and advanced skill acquisition"
       difficulty := "Advanced", estimatedTime := "40 min", category := "Learning"
       baseRelevance := 0.75 }]

/-- The performance level derived from the average quiz score. -/
def performanceLevelOf (averageQuizScore : ℚ) : String :=
  if averageQuizScore < 6 then "beginner"
  else if 8 < averageQuizScore then "advanced"
  else "intermediate"

/-- The recommendation list built by `getFallbackRecommendations`: the
category templates, truncated to the requested count, with the template
relevance adjusted by performance level. The two sequential `if`
adjustments of the source act on distinct difficulty values, so they are
rendered as one conditional expression. -/
def getFallbackRecsList (courseTitle : String) (averageQuizScore : ℚ)
    (requestedCount now : Nat) : List RecOut :=
  let category := analyzeCourseCategory courseTitle
  let performanceLevel := performanceLevelOf averageQuizScore
  let templates := getLessonTemplatesForCategory category
  ((templates.take requestedCount).enum).map fun p =>
    let t := p.2
    let base := t.baseRelevance
    let relevanceScore :=
      if performanceLevel = "beginner" then
        if t.difficulty = "Beginner" then base + 0.2
        else if t.difficulty = "Advanced" then base - 0.3
        else base
      else if performanceLevel = "advanced" then
        if t.difficulty = "Advanced" then base + 0.2
        else if t.difficulty = "Beginner" then base - 0.2
        else base
      else base
    { id := Json.str ("fallback-" ++ category ++ "-" ++ toString now ++ "-" ++ toString p.1)
      title := Json.str (t.title ++ " (Advanced " ++ courseTitle ++ ")")
      description := Json.str t.description
      difficulty := Json.str t.difficulty
      estimatedTime := Json.str t.estimatedTime
      category := Json.str t.category
      relevanceScore := JsNum.fin relevanceScore
      source := "curated" }

/-- The response of the recommendation endpoint, with the JSON body
projected onto the fields the claims are about. -/
structure RecsResp where
  status : Nat
  error : Option String
  recommendations : Option (List RecOut)

/-- The 200 fallback response built by `getFallbackRecommendations`. -/
def fallbackRecsResp (courseTitle : String) (averageQuizScore : ℚ)
    (requestedCount now : Nat) : RecsResp :=
  { status := 200, error := none
    recommendations := some (getFallbackRecsList courseTitle averageQuizScore requestedCount now) }

/-- The `generate-lesson-recommendations` handler: a missing course title
is a hard 500; a missing credential, a failed inference call (including the
rate-limit status), and any parse or structure failure all fall back to a
200 response with the curated list. -/
def lessonRecsServe (courseTitle : Option String) (averageQuizScore : ℚ)
    (requestedCount now : Nat) (groqApiKey : Option String) (groq : GroqCall) : RecsResp :=
  if ¬ truthyS courseTitle then
    { status := 500
      error := some "Course title is required for generating recommendations"
      recommendations := none }
  else if ¬ truthyS groqApiKey then
    fallbackRecsResp (courseTitle.getD "") averageQuizScore requestedCount now
  else
    match groq with
    | .failure _ _ => fallbackRecsResp (courseTitle.getD "") averageQuizScore requestedCount now
    | .success content =>
      match extractRecsL content.data with
      | some j =>
        match j.getField "recommendations" with
        | some (Json.arr recs) =>
          { status := 200, error := none
            recommendations := some ((recs.enum).map fun p =>
              mapAIRec (courseTitle.getD "") now p.1 p.2) }
        | _ => fallbackRecsResp (courseTitle.getD "") averageQuizScore requestedCount now
      | none => fallbackRecsResp (courseTitle.getD "") averageQuizScore requestedCount now

/-! ## Client-side models (`useCourses.ts`, `QuizModal.tsx`) -/

/-- A database operation issued by `deleteCourse`. -/
inductive DbOp where
  | delQuizScores (courseId : String)
  | delCourse (courseId : String)
deriving DecidableEq

/-- The slice of database state `deleteCourse` touches: course rows (by id)
and quiz-score rows (keyed by course id). -/
structure DbState where
  courses : List String
  quizScores : List String
deriving DecidableEq

/-- `deleteCourse`: delete the course's quiz-score rows first; if that
errors (`failOn` the op), the catch block ends the flow with the state
unchanged; otherwise delete the course row (cascading in the datastore).
Returns the final state and the trace of issued operations. -/
def runDeleteCourse (db : DbState) (courseId : String) (failOn : DbOp → Bool) :
    DbState × List DbOp :=
  let op1 := DbOp.delQuizScores courseId
  if failOn op1 then (db, [op1])
  else
    let db1 : DbState := { db with quizScores := db.quizScores.filter fun c => c ≠ courseId }
    let op2 := DbOp.delCourse courseId
    if failOn op2 then (db1, [op1, op2])
    else ({ db1 with courses := db1.courses.filter fun c => c ≠ courseId }, [op1, op2])

/-- Result of invoking the `validate-quiz-answer` edge function from the
client: an error result, a thrown exception, or a data object whose
`isCorrect` field may be absent. -/
inductive InvokeOutcome where
  | errorRes
  | thrownRes
  | okRes (isCorrect : Option Bool)
deriving DecidableEq

/-- The plain-string-equality fallback of the quiz validator:
trim and lower-case both answers, then compare. -/
def simpleAnswerCompare (userAnswer correctAnswer : String) : Bool :=
  lowerStr (jsTrim userAnswer) = lowerStr (jsTrim correctAnswer)

/-- `validateAnswerWithAI` of `QuizModal.tsx`: empty inputs, an invocation
error, and a thrown exception all fall back to the simple comparison; a
successful invocation returns `data?.isCorrect || false`. -/
def validateAnswerWithAI (userAnswer question correctAnswer : String)
    (invoke : InvokeOutcome) : Bool :=
  if userAnswer = "" ∨ question = "" ∨ correctAnswer = "" then
    simpleAnswerCompare userAnswer correctAnswer
  else
    match invoke with
    | .errorRes => simpleAnswerCompare userAnswer correctAnswer
    | .thrownRes => simpleAnswerCompare userAnswer correctAnswer
    | .okRes b => b.getD false

/-! ## Ordered fan-out inserts and ordered selects (`createCourse` / `fetchCourses`) -/

/-- A resource from the generated content tree. -/
structure ResourceGen where
  title : String
  url : String
deriving DecidableEq

/-- A quiz question from the generated content tree. -/
structure QuizQGen where
  question : String
  options : List String
  answer : String
deriving DecidableEq

/-- A lesson from the generated content tree. -/
structure LessonGen where
  lesson_title : String
  objectives : List String
  content : String
  quiz : List QuizQGen
  free_resources : List ResourceGen
deriving DecidableEq

/-- A module from the generated content tree. -/
structure ModuleGen where
  module_title : String
  lessons : List LessonGen
deriving DecidableEq

/-- Rows inserted by one of `createCourse`'s loops: each element paired
with its order column, `k` being the order of the first element. -/
def indexRowsFrom {α : Type} (k : Nat) : List α → List (α × Nat)
  | [] => []
  | x :: xs => (x, k) :: indexRowsFrom (k + 1) xs

/-- Rows inserted by a `createCourse` loop in generation order: the order
column is the zero-based loop index plus one. -/
def indexRows {α : Type} (xs : List α) : List (α × Nat) := indexRowsFrom 1 xs

/-- The module rows inserted by `createCourse` (payload and `module_order`). -/
def moduleInsertRows (modules : List ModuleGen) : List (ModuleGen × Nat) := indexRows modules

/-- The lesson rows inserted for one module (payload and `lesson_order`). -/
def lessonInsertRows (m : ModuleGen) : List (LessonGen × Nat) := indexRows m.lessons

/-- The quiz-question rows inserted for one lesson (payload and `question_order`). -/
def quizInsertRows (l : LessonGen) : List (QuizQGen × Nat) := indexRows l.quiz

/-- The resource rows inserted for one lesson (payload and `resource_order`). -/
def resourceInsertRows (l : LessonGen) : List (ResourceGen × Nat) := indexRows l.free_resources

/-- A select with `.order(column)`: the stored rows sorted by the order
column. The stored rows are an arbitrary permutation of the inserted ones;
because the inserted order values are distinct, any sort by the order
column determines the result uniquely. -/
def fetchSorted {α : Type} (rows : List (α × Nat)) : List (α × Nat) :=
  List.insertionSort (fun a b => a.2 ≤ b.2) rows

/-! ## Identity of the cleaning steps on noise-free printable-ASCII input -/

/-- Characters are equal exactly when their code points are. -/
theorem char_eq_iff_toNat {a b : Char} : a = b ↔ a.toNat = b.toNat := by
  constructor
  · intro h
    rw [h]
  · intro h
    exact Char.ext (UInt32.ext_iff.mpr h)

/-- `dropWhile` is the identity when the head does not satisfy the predicate. -/
theorem dropWhile_eq_self_of_head {p : Char → Bool} {s : List Char} {a : Char}
    (hh : s.head? = some a) (hp : p a = false) : s.dropWhile p = s := by
  cases s with
  | nil => simp at hh
  | cons x xs =>
    simp only [List.head?_cons, Option.some.injEq] at hh
    subst hh
    simp [List.dropWhile_cons, hp]

/-- `trimL` leaves a string alone whose first and last characters are not
whitespace. -/
theorem trimL_eq_self {s : List Char} {a b : Char}
    (hh : s.head? = some a) (ha : isJsWsB a = false)
    (hl : s.getLast? = some b) (hb : isJsWsB b = false) : trimL s = s := by
  unfold trimL
  rw [dropWhile_eq_self_of_head hh ha]
  rw [dropWhile_eq_self_of_head (by rw [List.head?_reverse]; exact hl) hb]
  exact s.reverse_reverse

/-- `startsWithL` is false when the heads differ. -/
theorem startsWithL_false_of_head {p0 : Char} {ps s : List Char} {a : Char}
    (hh : s.head? = some a) (hne : a ≠ p0) : startsWithL (p0 :: ps) s = false := by
  cases s with
  | nil => simp at hh
  | cons x xs =>
    simp only [List.head?_cons, Option.some.injEq] at hh
    subst hh
    simp [startsWithL, hne]

/-- `stripFences` leaves a string alone that starts with an opening brace. -/
theorem stripFences_eq_self {s : List Char} (hh : s.head? = some lbrace) :
    stripFences s = s := by
  unfold stripFences fenceJson fencePlain
  rw [startsWithL_false_of_head hh (by decide)]
  simp only [Bool.false_eq_true, if_false]
  rw [startsWithL_false_of_head hh (by decide)]
  simp

/-- `dropBeforeBrace` leaves a string alone that starts with an opening
brace. -/
theorem dropBeforeBrace_eq_self {s : List Char} (hh : s.head? = some lbrace) :
    dropBeforeBrace s = s := by
  cases s with
  | nil => simp at hh
  | cons x xs =>
    simp only [List.head?_cons, Option.some.injEq] at hh
    subst hh
    unfold dropBeforeBrace
    simp [List.findIdx?_cons]

/-- `dropAfterBrace` leaves a string alone that ends with a closing brace. -/
theorem dropAfterBrace_eq_self {s : List Char} (hl : s.getLast? = some rbrace) :
    dropAfterBrace s = s := by
  have hrev : s.reverse.head? = some rbrace := by rw [List.head?_reverse]; exact hl
  obtain ⟨xs, hr⟩ : ∃ xs, s.reverse = rbrace :: xs := by
    cases hx : s.reverse with
    | nil => rw [hx] at hrev; simp at hrev
    | cons y ys =>
      rw [hx] at hrev
      simp only [List.head?_cons, Option.some.injEq] at hrev
      exact ⟨ys, by rw [hrev]⟩
  have hlen : s.length = xs.length + 1 := by
    have := congrArg List.length hr
    simpa using this
  have hfind : s.reverse.findIdx? (fun d => d = rbrace) = some 0 := by
    rw [hr]
    simp [List.findIdx?_cons]
  unfold dropAfterBrace lastIdxOf
  simp only [hfind]
  have hnot : ¬ (0 < s.length - 1 - 0 ∧ s.length - 1 - 0 < s.length - 1) := by omega
  simp [hnot]

/-- `removeCtrl` is the identity on printable-ASCII strings. -/
theorem removeCtrl_eq_self {s : List Char}
    (h : ∀ c ∈ s, 0x20 ≤ c.toNat ∧ c.toNat ≤ 0x7E) : removeCtrl s = s := by
  unfold removeCtrl
  rw [List.filter_eq_self]
  intro c hc
  have hcc := h c hc
  simp only [isCtrlB, Bool.not_eq_eq_eq_not, Bool.not_true, Bool.or_eq_false_iff,
    Bool.and_eq_false_iff, decide_eq_false_iff_not, not_le]
  omega

/-- A printable-ASCII character is not smart punctuation. -/
theorem smartChar_eq_self {c : Char} (h : c.toNat ≤ 0x7E) : smartChar c = [c] := by
  unfold smartChar
  have h1 : ¬ (c.toNat = 0x201C ∨ c.toNat = 0x201D) := by omega
  have h2 : ¬ (c.toNat = 0x2018 ∨ c.toNat = 0x2019) := by omega
  have h3 : ¬ (c.toNat = 0x2013 ∨ c.toNat = 0x2014) := by omega
  have h4 : ¬ (c.toNat = 0x2026) := by omega
  simp [h1, h2, h3, h4]

/-- `normalizeSmart` is the identity on printable-ASCII strings. -/
theorem normalizeSmart_eq_self {s : List Char}
    (h : ∀ c ∈ s, 0x20 ≤ c.toNat ∧ c.toNat ≤ 0x7E) : normalizeSmart s = s := by
  unfold normalizeSmart
  induction s with
  | nil => rfl
  | cons c rest ih =>
    simp only [List.map_cons, List.flatten_cons]
    rw [smartChar_eq_self (h c (by simp)).2]
    rw [ih fun d hd => h d (by simp [hd])]
    rfl

/-- `normalizeSmartBasic` is the identity on printable-ASCII strings. -/
theorem normalizeSmartBasic_eq_self {s : List Char}
    (h : ∀ c ∈ s, 0x20 ≤ c.toNat ∧ c.toNat ≤ 0x7E) : normalizeSmartBasic s = s := by
  unfold normalizeSmartBasic
  induction s with
  | nil => rfl
  | cons c rest ih =>
    have hc := (h c (by simp)).2
    have h1 : ¬ (c.toNat = 0x201C ∨ c.toNat = 0x201D) := by omega
    have h2 : ¬ (c.toNat = 0x2018 ∨ c.toNat = 0x2019) := by omega
    have h3 : ¬ (c.toNat = 0x2013 ∨ c.toNat = 0x2014) := by omega
    simp only [List.map_cons, h1, h2, h3, if_false]
    rw [ih fun d hd => h d (by simp [hd])]

/-- `removeJapanese` is the identity on printable-ASCII strings. -/
theorem removeJapanese_eq_self {s : List Char}
    (h : ∀ c ∈ s, 0x20 ≤ c.toNat ∧ c.toNat ≤ 0x7E) : removeJapanese s = s := by
  unfold removeJapanese
  rw [List.filter_eq_self]
  intro c hc
  have hcc := h c hc
  simp only [Bool.not_eq_eq_eq_not, Bool.not_true, Bool.or_eq_false_iff,
    Bool.and_eq_false_iff, decide_eq_false_iff_not, not_le]
  omega

/-- `removeNonAscii` is the identity on printable-ASCII strings. -/
theorem removeNonAscii_eq_self {s : List Char}
    (h : ∀ c ∈ s, 0x20 ≤ c.toNat ∧ c.toNat ≤ 0x7E) : removeNonAscii s = s := by
  unfold removeNonAscii
  rw [List.filter_eq_self]
  intro c hc
  have hcc := h c hc
  simp only [decide_eq_true_eq]
  omega

/-! ## Invariance of the course extractor under smart-punctuation substitution -/

/-- One character of the second string is either equal to the corresponding
character of the first, or is the smart typographic variant of an ASCII
double quote, apostrophe, or hyphen found there. -/
def smartedOf (a b : Char) : Prop :=
  a = b ∨
  (a.toNat = 34 ∧ (b.toNat = 0x201C ∨ b.toNat = 0x201D)) ∨
  (a.toNat = 39 ∧ (b.toNat = 0x2018 ∨ b.toNat = 0x2019)) ∨
  (a.toNat = 45 ∧ (b.toNat = 0x2013 ∨ b.toNat = 0x2014))

/-- The second string arises from the first by replacing some ASCII quotes,
apostrophes, or dashes with their smart typographic equivalents. -/
def Smarted (s t : List Char) : Prop := List.Forall₂ smartedOf s t

/-- Related characters agree on whitespace-ness. -/
theorem smartedOf_ws {a b : Char} (h : smartedOf a b) : isJsWsB a = isJsWsB b := by
  rcases h with rfl | ⟨ha, hb⟩ | ⟨ha, hb⟩ | ⟨ha, hb⟩
  · rfl
  all_goals
    simp only [isJsWsB, ha]
    rcases hb with hb | hb <;> simp only [hb] <;> rfl

/-- Related characters agree on control-ness. -/
theorem smartedOf_ctrl {a b : Char} (h : smartedOf a b) : isCtrlB a = isCtrlB b := by
  rcases h with rfl | ⟨ha, hb⟩ | ⟨ha, hb⟩ | ⟨ha, hb⟩
  · rfl
  all_goals
    simp only [isCtrlB, ha]
    rcases hb with hb | hb <;> simp only [hb] <;> rfl

/-- Related characters agree on equality with any character that is neither
a replaceable ASCII character nor a smart variant. -/
theorem smartedOf_rigid {a b ch : Char} (h : smartedOf a b)
    (hch : ch.toNat ≠ 34 ∧ ch.toNat ≠ 39 ∧ ch.toNat ≠ 45 ∧
      ch.toNat ≠ 0x201C ∧ ch.toNat ≠ 0x201D ∧ ch.toNat ≠ 0x2018 ∧
      ch.toNat ≠ 0x2019 ∧ ch.toNat ≠ 0x2013 ∧ ch.toNat ≠ 0x2014) :
    (a = ch) ↔ (b = ch) := by
  rcases h with rfl | ⟨ha, hb⟩ | ⟨ha, hb⟩ | ⟨ha, hb⟩
  · rfl
  all_goals
    simp only [char_eq_iff_toNat, ha]
    rcases hb with hb | hb <;> rw [hb] <;>
      (constructor <;> intro hx <;> omega)

/-- `smartedOf` preserved by `dropWhile` along a compatible predicate. -/
theorem Smarted.dropWhile {p : Char → Bool}
    (hp : ∀ a b, smartedOf a b → p a = p b) :
    ∀ {s t : List Char}, Smarted s t → Smarted (s.dropWhile p) (t.dropWhile p) := by
  intro s t h
  induction h with
  | nil => exact List.Forall₂.nil
  | cons hab hrest ih =>
    rename_i a b s' t'
    by_cases hpa : p a
    · simp only [List.dropWhile_cons, ← hp a b hab, hpa, if_true]
      exact ih
    · simp only [List.dropWhile_cons, ← hp a b hab, hpa]
      simp only [Bool.false_eq_true, if_false]
      exact List.Forall₂.cons hab hrest

/-- `smartedOf` preserved by `filter` along a compatible predicate. -/
theorem Smarted.filter {p : Char → Bool}
    (hp : ∀ a b, smartedOf a b → p a = p b) :
    ∀ {s t : List Char}, Smarted s t → Smarted (s.filter p) (t.filter p) := by
  intro s t h
  induction h with
  | nil => exact List.Forall₂.nil
  | cons hab hrest ih =>
    rename_i a b s' t'
    by_cases hpa : p a
    · simp only [List.filter_cons, hpa, if_true, ← hp a b hab]
      exact List.Forall₂.cons hab ih
    · simp only [List.filter_cons, hpa, ← hp a b hab]
      simp only [Bool.false_eq_true, if_false]
      exact ih

/-- `smartedOf` preserved by `reverse`. -/
theorem Smarted.rev {s t : List Char} (h : Smarted s t) :
    Smarted s.reverse t.reverse :=
  List.forall₂_reverse_iff.mpr h

/-- Related strings agree on `startsWithL` for a pattern of rigid
characters. -/
theorem Smarted.startsWith_congr {lit : List Char}
    (hlit : ∀ ch ∈ lit, ∀ a b, smartedOf a b → ((a = ch) ↔ (b = ch))) :
    ∀ {s t : List Char}, Smarted s t → startsWithL lit s = startsWithL lit t := by
  induction lit with
  | nil => intro s t _; rfl
  | cons p ps ih =>
    intro s t h
    cases h with
    | nil => rfl
    | cons hab hrest =>
      rename_i a b s' t'
      have hpa : decide (a = p) = decide (b = p) :=
        decide_eq_decide.mpr (hlit p (by simp) a b hab)
      simp only [startsWithL, hpa]
      rw [ih (fun ch hch => hlit ch (by simp [hch])) hrest]

/-- Related strings agree on `findIdx?` (at any start index) for a
compatible predicate. -/
theorem Smarted.findIdx_congr {p : Char → Bool}
    (hp : ∀ a b, smartedOf a b → p a = p b) :
    ∀ {s t : List Char}, Smarted s t →
      ∀ i, List.findIdx? p s i = List.findIdx? p t i := by
  intro s t h
  induction h with
  | nil => intro i; rfl
  | cons hab hrest ih =>
    rename_i a b s' t'
    intro i
    simp only [List.findIdx?_cons, ← hp a b hab]
    by_cases hpa : p a
    · simp [hpa]
    · simp [hpa, ih 0]

/-- The characters of the fence markers are rigid for `smartedOf`. -/
theorem fence_rigid :
    ∀ ch ∈ fenceJson, ∀ a b : Char, smartedOf a b → ((a = ch) ↔ (b = ch)) := by
  intro ch hch a b h
  simp only [fenceJson, List.mem_cons, List.mem_singleton, List.not_mem_nil, or_false] at hch
  rcases hch with rfl | rfl | rfl | rfl | rfl | rfl | rfl <;>
    exact smartedOf_rigid h (by decide)

/-- The characters of the bare fence marker are rigid for `smartedOf`. -/
theorem fencePlain_rigid :
    ∀ ch ∈ fencePlain, ∀ a b : Char, smartedOf a b → ((a = ch) ↔ (b = ch)) := by
  intro ch hch a b h
  simp only [fencePlain, List.mem_cons, List.not_mem_nil, or_false] at hch
  rcases hch with rfl | rfl | rfl <;> exact smartedOf_rigid h (by decide)

/-- `trimL` preserves the relation. -/
theorem Smarted.trim {s t : List Char} (h : Smarted s t) :
    Smarted (trimL s) (trimL t) := by
  unfold trimL
  exact (((h.dropWhile fun a b hab => smartedOf_ws hab).rev.dropWhile
    fun a b hab => smartedOf_ws hab)).rev

/-- `stripFenceClose` preserves the relation. -/
theorem Smarted.stripClose {s t : List Char} (h : Smarted s t) :
    Smarted (stripFenceClose s) (stripFenceClose t) := by
  unfold stripFenceClose
  dsimp only
  rw [← h.rev.startsWith_congr fencePlain_rigid]
  by_cases hw : startsWithL fencePlain s.reverse
  · simp only [hw, if_true]
    exact Smarted.rev (Smarted.dropWhile (fun a b hab => smartedOf_ws hab)
      (List.forall₂_drop 3 h.rev))
  · simp only [hw]
    simp only [Bool.false_eq_true, if_false]
    exact h

/-- `dropFenceOpen` preserves the relation. -/
theorem Smarted.dropOpen {tag s t : List Char} (h : Smarted s t) :
    Smarted (dropFenceOpen tag s) (dropFenceOpen tag t) := by
  unfold dropFenceOpen
  exact Smarted.dropWhile (fun a b hab => smartedOf_ws hab)
    (List.forall₂_drop tag.length h)

/-- `stripFences` preserves the relation. -/
theorem Smarted.fences {s t : List Char} (h : Smarted s t) :
    Smarted (stripFences s) (stripFences t) := by
  unfold stripFences
  rw [← h.startsWith_congr fence_rigid]
  by_cases h1 : startsWithL fenceJson s
  · simp only [h1, if_true]
    have h2 : Smarted (stripFenceClose (dropFenceOpen fenceJson s))
        (stripFenceClose (dropFenceOpen fenceJson t)) := h.dropOpen.stripClose
    rw [← h2.startsWith_congr fencePlain_rigid]
    by_cases h3 : startsWithL fencePlain (stripFenceClose (dropFenceOpen fenceJson s))
    · simp only [h3, if_true]
      exact h2.dropOpen.stripClose
    · simp only [h3]
      simp only [Bool.false_eq_true, if_false]
      exact h2
  · simp only [h1]
    simp only [Bool.false_eq_true, if_false]
    rw [← h.startsWith_congr fencePlain_rigid]
    by_cases h3 : startsWithL fencePlain s
    · simp only [h3, if_true]
      exact h.dropOpen.stripClose
    · simp only [h3]
      simp only [Bool.false_eq_true, if_false]
      exact h

/-- The opening-brace test is compatible with the relation. -/
theorem smartedOf_lbrace {a b : Char} (h : smartedOf a b) :
    (decide (a = lbrace) : Bool) = decide (b = lbrace) :=
  decide_eq_decide.mpr (smartedOf_rigid h (by decide))

/-- The closing-brace test is compatible with the relation. -/
theorem smartedOf_rbrace {a b : Char} (h : smartedOf a b) :
    (decide (a = rbrace) : Bool) = decide (b = rbrace) :=
  decide_eq_decide.mpr (smartedOf_rigid h (by decide))

/-- `dropBeforeBrace` preserves the relation. -/
theorem Smarted.dropBefore {s t : List Char} (h : Smarted s t) :
    Smarted (dropBeforeBrace s) (dropBeforeBrace t) := by
  unfold dropBeforeBrace
  rw [← h.findIdx_congr (fun a b hab => smartedOf_lbrace hab) 0]
  cases hf : s.findIdx? (fun c => c = lbrace) with
  | none => exact h
  | some i =>
    by_cases hi : 0 < i
    · simp only [hi, if_true]
      exact List.forall₂_drop i h
    · simp only [hi]
      simp only [if_false]
      exact h

/-- `lastIdxOf` the closing brace agrees on related strings. -/
theorem Smarted.lastIdx_congr {s t : List Char} (h : Smarted s t) :
    lastIdxOf rbrace s = lastIdxOf rbrace t := by
  unfold lastIdxOf
  rw [← h.rev.findIdx_congr (fun a b hab => smartedOf_rbrace hab) 0, h.length_eq]

/-- `dropAfterBrace` preserves the relation. -/
theorem Smarted.dropAfter {s t : List Char} (h : Smarted s t) :
    Smarted (dropAfterBrace s) (dropAfterBrace t) := by
  unfold dropAfterBrace
  rw [← h.lastIdx_congr, ← h.length_eq]
  cases hf : lastIdxOf rbrace s with
  | none => exact h
  | some i =>
    by_cases hi : 0 < i ∧ i < s.length - 1
    · simp only [hi, if_true]
      exact List.forall₂_take (i + 1) h
    · simp only [hi]
      simp only [if_false]
      exact h

/-- `removeCtrl` preserves the relation. -/
theorem Smarted.ctrl {s t : List Char} (h : Smarted s t) :
    Smarted (removeCtrl s) (removeCtrl t) := by
  unfold removeCtrl
  exact h.filter fun a b hab => by rw [smartedOf_ctrl hab]

/-- Related characters have equal smart-punctuation images. -/
theorem smartChar_congr {a b : Char} (h : smartedOf a b) :
    smartChar a = smartChar b := by
  rcases h with rfl | ⟨ha, hb⟩ | ⟨ha, hb⟩ | ⟨ha, hb⟩
  · rfl
  · have ha' : a = '"' := char_eq_iff_toNat.mpr (by rw [ha]; rfl)
    subst ha'
    have hb' : smartChar b = ['"'] := by rcases hb with hb | hb <;> simp [smartChar, hb]
    rw [hb']
    rfl
  · have ha' : a = apoChar := char_eq_iff_toNat.mpr (by rw [ha]; rfl)
    subst ha'
    have hb' : smartChar b = [apoChar] := by rcases hb with hb | hb <;> simp [smartChar, hb]
    rw [hb']
    rfl
  · have ha' : a = '-' := char_eq_iff_toNat.mpr (by rw [ha]; rfl)
    subst ha'
    have hb' : smartChar b = ['-'] := by rcases hb with hb | hb <;> simp [smartChar, hb]
    rw [hb']
    rfl

/-- The smart-punctuation normalization maps related strings to the same
string. -/
theorem normalizeSmart_congr {s t : List Char} (h : Smarted s t) :
    normalizeSmart s = normalizeSmart t := by
  unfold normalizeSmart
  induction h with
  | nil => rfl
  | cons hab hrest ih =>
    simp only [List.map_cons, List.flatten_cons, smartChar_congr hab, ih]

/-- The whole course cleaning pipeline is invariant under replacing ASCII
quotes, apostrophes, or dashes by their smart typographic variants anywhere
in the input. -/
theorem cleanCourseContent_congr {s t : List Char} (h : Smarted s t) :
    cleanCourseContent s = cleanCourseContent t := by
  unfold cleanCourseContent
  rw [normalizeSmart_congr h.trim.fences.dropBefore.dropAfter.ctrl]

/-! ## Sorting a permutation of rows with distinct contiguous order columns -/

/-- Order on rows used to identify the sorted result: strictly smaller
order column, or equal rows. -/
def keyOrder {α : Type} (a b : α × Nat) : Prop := a.2 < b.2 ∨ a = b

instance {α : Type} : IsAntisymm (α × Nat) keyOrder where
  antisymm a b hab hba := by
    rcases hab with h1 | h1
    · rcases hba with h2 | h2
      · omega
      · exact h2.symm
    · exact h1

instance instSndLeTotal {α : Type} : IsTotal (α × Nat) (fun a b : α × Nat => a.2 ≤ b.2) where
  total a b := Nat.le_total a.2 b.2

instance instSndLeTrans {α : Type} : IsTrans (α × Nat) (fun a b : α × Nat => a.2 ≤ b.2) where
  trans a b c hab hbc := le_trans hab hbc

/-- Every order column in `indexRowsFrom k` is at least `k`. -/
theorem indexRowsFrom_key_ge {α : Type} :
    ∀ (xs : List α) (k : Nat) (y : α × Nat), y ∈ indexRowsFrom k xs → k ≤ y.2 := by
  intro xs
  induction xs with
  | nil => intro k y hy; simp [indexRowsFrom] at hy
  | cons x xs ih =>
    intro k y hy
    simp only [indexRowsFrom, List.mem_cons] at hy
    rcases hy with rfl | hy
    · simp
    · exact le_trans (Nat.le_succ k) (ih (k + 1) y hy)

/-- The order columns of `indexRowsFrom` are strictly increasing. -/
theorem indexRowsFrom_pairwise {α : Type} :
    ∀ (xs : List α) (k : Nat),
      List.Pairwise (fun a b : α × Nat => a.2 < b.2) (indexRowsFrom k xs) := by
  intro xs
  induction xs with
  | nil => intro k; simp [indexRowsFrom]
  | cons x xs ih =>
    intro k
    simp only [indexRowsFrom]
    refine List.Pairwise.cons ?_ (ih (k + 1))
    intro y hy
    have := indexRowsFrom_key_ge xs (k + 1) y hy
    simpa using this

/-- The order columns of a `createCourse` loop are `1, 2, …, n`. -/
theorem indexRowsFrom_map_snd {α : Type} :
    ∀ (xs : List α) (k : Nat),
      (indexRowsFrom k xs).map Prod.snd = List.range' k xs.length := by
  intro xs
  induction xs with
  | nil => intro k; rfl
  | cons x xs ih =>
    intro k
    simp [indexRowsFrom, List.range'_succ, ih (k + 1)]

/-- The payloads of a `createCourse` loop are the generated elements in
generation order. -/
theorem indexRowsFrom_map_fst {α : Type} :
    ∀ (xs : List α) (k : Nat), (indexRowsFrom k xs).map Prod.fst = xs := by
  intro xs
  induction xs with
  | nil => intro k; rfl
  | cons x xs ih =>
    intro k
    simp [indexRowsFrom, ih (k + 1)]

/-- Sorting any permutation of the inserted rows by the order column
recovers exactly the inserted sequence: the orders are distinct, so the
sorted permutation is unique. -/
theorem fetchSorted_indexRows {α : Type} (xs : List α) (rows : List (α × Nat))
    (h : rows.Perm (indexRows xs)) : fetchSorted rows = indexRows xs := by
  have hperm : (fetchSorted rows).Perm (indexRows xs) :=
    (List.perm_insertionSort _ rows).trans h
  have hsorted_le : (fetchSorted rows).Pairwise (fun a b : α × Nat => a.2 ≤ b.2) :=
    List.sorted_insertionSort _ rows
  have hkeys : ((indexRows xs).map Prod.snd).Nodup := by
    rw [indexRows, indexRowsFrom_map_snd]
    exact List.nodup_range' 1 xs.length
  have hkeys1 : ((fetchSorted rows).map Prod.snd).Nodup :=
    (hperm.map Prod.snd).nodup_iff.mpr hkeys
  have hne : (fetchSorted rows).Pairwise (fun a b : α × Nat => a.2 ≠ b.2) :=
    List.pairwise_map.mp hkeys1
  have hsorted1 : (fetchSorted rows).Pairwise (@keyOrder α) := by
    have hcomb := hsorted_le.and hne
    exact hcomb.imp fun hab => Or.inl (lt_of_le_of_ne hab.1 hab.2)
  have hsorted2 : (indexRows xs).Pairwise (@keyOrder α) :=
    (indexRowsFrom_pairwise xs 1).imp fun hab => Or.inl hab
  exact List.eq_of_perm_of_sorted hperm hsorted1 hsorted2

/-! ## Claim C1 -/

/-- The schema conformance of the fallback course: at least one module, its
first lesson with a non-empty objectives array, non-empty content, exactly
two quiz questions and exactly two resources. -/
def fallbackShapeOk (title : String) : Prop :=
  ∃ m1 mrest l1 lrest obs cont qz res,
    (fallbackCourseJson title).getField "modules" = some (Json.arr (m1 :: mrest)) ∧
    m1.getField "lessons" = some (Json.arr (l1 :: lrest)) ∧
    l1.getField "objectives" = some (Json.arr obs) ∧ obs ≠ [] ∧
    l1.getField "content" = some (Json.str cont) ∧ cont ≠ "" ∧
    l1.getField "quiz" = some (Json.arr qz) ∧ qz.length = 2 ∧
    l1.getField "free_resources" = some (Json.arr res) ∧ res.length = 2

/-- The fallback course satisfies the schema shape for every course title. -/
theorem fallbackShape (title : String) : fallbackShapeOk title := by
  unfold fallbackShapeOk
  refine ⟨_, _, _, _, _, _, _, _, rfl, rfl, rfl, ?_, rfl, ?_, rfl, rfl, rfl, rfl⟩
  · simp
  · intro hc
    have hlen := congrArg String.length hc
    have h30 : ("Welcome to your comprehensive ".length : Nat) = 30 := rfl
    simp only [String.length_append, String.length_empty] at hlen
    omega

/-- Claim C1: when the inference call succeeds but its text does not yield
a parsed value with a top-level modules array, the generate-course handler
responds HTTP 200 with `success: true` and the hard-coded fallback course,
and that fallback has at least one module whose first lesson has non-empty
objectives, non-empty content, exactly two quiz questions and exactly two
resources. -/
theorem claim_C1_fallback_success (title audienceLevel duration groqApiKey raw : String)
    (ht : title ≠ "") (ha : audienceLevel ≠ "") (hd : duration ≠ "") (hk : groqApiKey ≠ "")
    (hparse : parsedModulesOk raw = false) :
    generateCourseServe (some title) (some audienceLevel) (some duration) (some groqApiKey)
      (GroqCall.success raw) =
      { status := 200
        body := Json.obj [("success", Json.bool true),
          ("courseContent", fallbackCourseJson title)] } ∧
    fallbackShapeOk title := by
  constructor
  · have hcontent : generateCourseContent title raw = fallbackCourseJson title := by
      unfold generateCourseContent
      unfold parsedModulesOk at hparse
      cases hx : extractCourse raw with
      | none => rfl
      | some j =>
        rw [hx] at hparse
        dsimp only at hparse
        simp [hparse]
    unfold generateCourseServe
    simp [truthyS, ht, ha, hd, hk, hcontent]
  · exact fallbackShape title

/-- Witness for C1 at a concrete request whose model text is plain prose. -/
theorem claim_C1_fallback_success_witness :
    parsedModulesOk "not json" = false ∧
    (generateCourseServe (some "Rust") (some "Beginner") (some "1-2 hours") (some "key")
      (GroqCall.success "not json") =
      { status := 200
        body := Json.obj [("success", Json.bool true),
          ("courseContent", fallbackCourseJson "Rust")] } ∧
    fallbackShapeOk "Rust") :=
  ⟨rfl, claim_C1_fallback_success "Rust" "Beginner" "1-2 hours" "key" "not json"
    (by decide) (by decide) (by decide) (by decide) rfl⟩

/-! ## Claim C4 -/

/-- `dropWhile` over a whitespace run stops at the first non-whitespace
character. -/
theorem dropWhile_ws_append {w : List Char} {c : Char} {v : List Char}
    (hw : ∀ a ∈ w, isJsWsB a = true) (hc : isJsWsB c = false) :
    List.dropWhile isJsWsB (w ++ c :: v) = c :: v := by
  induction w with
  | nil => simp [List.dropWhile_cons, hc]
  | cons a w ih =>
    simp only [List.cons_append, List.dropWhile_cons, hw a (by simp), if_true]
    exact ih fun x hx => hw x (by simp [hx])

/-- `takeWhile` over a whitespace run collects exactly the run. -/
theorem takeWhile_ws_append {w : List Char} {c : Char} {v : List Char}
    (hw : ∀ a ∈ w, isJsWsB a = true) (hc : isJsWsB c = false) :
    List.takeWhile isJsWsB (w ++ c :: v) = w := by
  induction w with
  | nil => simp [List.takeWhile_cons, hc]
  | cons a w ih =>
    simp only [List.cons_append, List.takeWhile_cons, hw a (by simp), if_true]
    rw [ih fun x hx => hw x (by simp [hx])]

/-- Unfolding of the trailing-comma repair at a matching position. -/
theorem fixTrailingCommas_cons_match {a : Char} {rest emit rest2 : List Char}
    (h : commaStep (a :: rest) = some (emit, rest2)) :
    fixTrailingCommas (a :: rest) = emit ++ fixTrailingCommas rest2 := by
  unfold fixTrailingCommas
  simp only [List.length_cons, scanRepair, h]
  congr 1
  exact scanRepair_fuel_irrel commaStep_progress (rest.length + 1)
    (by
      have := commaStep_progress _ _ _ h
      simp only [List.length_cons] at this
      omega)
    (by omega)

/-- Unfolding of the trailing-comma repair at a non-matching position. -/
theorem fixTrailingCommas_cons_nostep {a : Char} {rest : List Char}
    (h : commaStep (a :: rest) = none) :
    fixTrailingCommas (a :: rest) = a :: fixTrailingCommas rest := by
  unfold fixTrailingCommas
  simp only [List.length_cons, scanRepair, h]

/-- Claim C4: a comma directly before a closing brace or bracket (possibly
across whitespace) is removed by the repair pass — stated for the first
such occurrence, matching the left-to-right global replacement — and on the
concrete fenced input `"Sure! ```json\n{"a":1,}\n```"` the course
extractor recovers the object `{"a": 1}` rather than falling back. -/
theorem claim_C4_trailing_comma :
    (∀ (u w v : List Char) (c : Char),
      (∀ a ∈ u, a ≠ ',') → (∀ a ∈ w, isJsWsB a = true) → (c = rbrace ∨ c = ']') →
      fixTrailingCommas (u ++ ',' :: (w ++ c :: v)) = u ++ w ++ c :: fixTrailingCommas v) ∧
    extractCourse "Sure! ```json\n\x7b\"a\":1,\x7d\n```" =
      some (Json.obj [("a", Json.num 1 0)]) := by
  constructor
  · intro u w v c hu hw hc
    have hcw : isJsWsB c = false := by rcases hc with rfl | rfl <;> rfl
    induction u with
    | nil =>
      have hws : wsThen (w ++ c :: v) = some (w, c, v) := by
        unfold wsThen
        rw [dropWhile_ws_append hw hcw, takeWhile_ws_append hw hcw]
      have hstep : commaStep (',' :: (w ++ c :: v)) = some (w ++ [c], v) := by
        unfold commaStep
        simp [hws, hc]
      rw [List.nil_append, fixTrailingCommas_cons_match hstep]
      simp [List.append_assoc]
    | cons a u ih =>
      have ha : ¬ (a = ',') := hu a (by simp)
      have hstep : commaStep (a :: (u ++ ',' :: (w ++ c :: v))) = none := by
        unfold commaStep
        simp [ha]
      rw [List.cons_append, fixTrailingCommas_cons_nostep hstep,
        ih fun x hx => hu x (by simp [hx])]
      simp
  · rfl

/-- Witness for C4's repair statement at the concrete repaired body. -/
theorem claim_C4_trailing_comma_witness :
    fixTrailingCommas ([lbrace, '"', 'a', '"', ':', '1'] ++ ',' :: ([] ++ rbrace :: [])) =
      [lbrace, '"', 'a', '"', ':', '1'] ++ [] ++ rbrace :: fixTrailingCommas [] :=
  claim_C4_trailing_comma.1 [lbrace, '"', 'a', '"', ':', '1'] [] [] rbrace
    (by decide) (by simp) (Or.inl rfl)

/-! ## Claim C2 -/

/-- Counterexample to C2 as stated: `{"a":"é"}` is valid JSON with no
surrounding noise, yet the course extractor strips the non-ASCII character
and delivers `{"a":""}`, different from `JSON.parse`; and `{"a":"“"}` is
valid JSON on which the roadmap extractor's smart-quote normalization makes
the text unparseable, so extraction fails where `JSON.parse` succeeds. -/
theorem claim_C2_counterexample :
    parseJsonL ("\x7b\"a\":\"é\"\x7d" : String).data =
      some (Json.obj [("a", Json.str "é")]) ∧
    extractCourseL ("\x7b\"a\":\"é\"\x7d" : String).data =
      some (Json.obj [("a", Json.str "")]) ∧
    extractCourseL ("\x7b\"a\":\"é\"\x7d" : String).data ≠
      parseJsonL ("\x7b\"a\":\"é\"\x7d" : String).data ∧
    parseJsonL ("\x7b\"a\":\"“\"\x7d" : String).data =
      some (Json.obj [("a", Json.str "“")]) ∧
    extractRoadmapL ("\x7b\"a\":\"“\"\x7d" : String).data = none := by
  refine ⟨rfl, rfl, ?_, rfl, rfl⟩
  rw [show extractCourseL ("\x7b\"a\":\"é\"\x7d" : String).data =
        some (Json.obj [("a", Json.str "")]) from rfl,
      show parseJsonL ("\x7b\"a\":\"é\"\x7d" : String).data =
        some (Json.obj [("a", Json.str "é")]) from rfl]
  simp

/-- Claim C2 (amended): for input that is already valid JSON with no
surrounding noise, made of printable ASCII only (so none of the
character-class cleanups can touch it), delimited by braces, and on which
the four speculative repair substitutions make no change, both the course
and the roadmap extractor return exactly `JSON.parse` of the input. -/
theorem claim_C2_identity (s : List Char) (v : Json)
    (hparse : parseJsonL s = some v)
    (hascii : ∀ c ∈ s, 0x20 ≤ c.toNat ∧ c.toNat ≤ 0x7E)
    (hhead : s.head? = some lbrace)
    (hlast : s.getLast? = some rbrace)
    (h1 : fixTrailingCommas s = s) (h2 : fixBracePairs s = s)
    (h3 : fixBracketPairs s = s) (h4 : fixQuotes s = s) :
    extractCourseL s = some v ∧ extractRoadmapL s = some v := by
  have htrim : trimL s = s := trimL_eq_self hhead (by rfl) hlast (by rfl)
  have hclean : cleanCourseContent s = s := by
    unfold cleanCourseContent
    rw [htrim, stripFences_eq_self hhead, dropBeforeBrace_eq_self hhead,
      dropAfterBrace_eq_self hlast, removeCtrl_eq_self hascii,
      normalizeSmart_eq_self hascii, removeJapanese_eq_self hascii,
      removeNonAscii_eq_self hascii, h1, h2, h3, h4]
  have hclean2 : cleanRoadmapContent s = s := by
    unfold cleanRoadmapContent
    rw [htrim, stripFences_eq_self hhead, dropBeforeBrace_eq_self hhead,
      dropAfterBrace_eq_self hlast, removeCtrl_eq_self hascii,
      normalizeSmartBasic_eq_self hascii]
  constructor
  · unfold extractCourseL
    rw [hclean]
    exact hparse
  · unfold extractRoadmapL
    rw [hclean2]
    exact hparse

/-- Witness for the amended C2 at the concrete input `{"a":1}`. -/
theorem claim_C2_identity_witness :
    parseJsonL ("\x7b\"a\":1\x7d" : String).data = some (Json.obj [("a", Json.num 1 0)]) ∧
    (extractCourseL ("\x7b\"a\":1\x7d" : String).data =
        some (Json.obj [("a", Json.num 1 0)]) ∧
      extractRoadmapL ("\x7b\"a\":1\x7d" : String).data =
        some (Json.obj [("a", Json.num 1 0)])) :=
  ⟨rfl, claim_C2_identity ("\x7b\"a\":1\x7d" : String).data (Json.obj [("a", Json.num 1 0)])
    rfl (by decide) rfl rfl rfl rfl rfl rfl⟩

/-! ## Claim C3 -/

/-- Counterexample to C3's concrete scenario: on
`{"title": "He said “hi”"}` the course extractor does not recover a value
(the smart quotes are normalized to straight quotes, no repair applies, and
the parse fails), so no value with a `title` field is produced at all. -/
theorem claim_C3_counterexample :
    extractCourse "\x7b\"title\": \"He said “hi”\"\x7d" = none := rfl

/-- Claim C3 (amended): replacing ASCII double quotes, apostrophes, or
hyphens anywhere in the input by their smart typographic equivalents never
changes the result of the course extractor; on the particular input
`{"title": "He said “hi”"}`, however, both the smartened and the
normalized text fail to parse, so the extractor signals failure and the
caller falls back (no value with straight quotes around `hi` is
recovered). -/
theorem claim_C3_smart_invariance :
    (∀ s t : List Char, Smarted s t → extractCourseL t = extractCourseL s) ∧
    extractCourse "\x7b\"title\": \"He said “hi”\"\x7d" = none := by
  constructor
  · intro s t h
    unfold extractCourseL
    rw [cleanCourseContent_congr h]
  · rfl

/-- Witness for the amended C3: an em dash in place of a hyphen leaves the
extraction result unchanged. -/
theorem claim_C3_smart_invariance_witness :
    Smarted [Char.ofNat 45] [Char.ofNat 0x2013] ∧
    extractCourseL [Char.ofNat 0x2013] = extractCourseL [Char.ofNat 45] :=
  have hs : Smarted [Char.ofNat 45] [Char.ofNat 0x2013] :=
    List.Forall₂.cons (Or.inr (Or.inr (Or.inr ⟨rfl, Or.inl rfl⟩))) List.Forall₂.nil
  ⟨hs, claim_C3_smart_invariance.1 [Char.ofNat 45] [Char.ofNat 0x2013] hs⟩

/-! ## Claim C5 -/

/-- Counterexample to C5 as stated: with the provider credential unset, the
lesson-recommendation function responds HTTP 200 with the curated fallback
and no error field — not an HTTP 500. -/
theorem claim_C5_counterexample :
    (lessonRecsServe (some "Spanish") 9 6 0 none (GroqCall.success "ok")).status = 200 ∧
    (lessonRecsServe (some "Spanish") 9 6 0 none (GroqCall.success "ok")).error = none ∧
    200 ≠ 500 :=
  ⟨rfl, rfl, by decide⟩

/-- Claim C5 (amended): for the generate-course, generate-roadmap-content
and validate-quiz-answer functions, a missing required field, a missing
provider credential, or a non-success inference status each produce an HTTP
500 whose body is `{ error: message, details: string rendering }`; the
ai-tutor-chat and generate-adaptive-feedback functions validate no request
fields but produce the same HTTP 500 for a missing credential or a
non-success inference status, and respond 200 whenever the inference call
succeeds; the lesson-recommendation function responds 500 exactly to a
missing course title — with a truthy title it responds HTTP 200 with no
error field, absorbing a missing credential or a failed inference call into
the curated fallback. -/
theorem claim_C5_hard_failures :
    (∀ (t a d k : Option String) (g : GroqCall),
      (¬ (truthyS t = true ∧ truthyS a = true ∧ truthyS d = true) ∨ truthyS k = false ∨
        ∃ st b, g = GroqCall.failure st b) →
      ∃ msg, generateCourseServe t a d k g = errResp msg) ∧
    (∀ (t a d k : Option String) (g : GroqCall),
      (¬ (truthyS t = true ∧ truthyS a = true ∧ truthyS d = true) ∨ truthyS k = false ∨
        ∃ st b, g = GroqCall.failure st b) →
      ∃ msg, roadmapServe t a d k g = errResp msg) ∧
    (∀ (t a d k : Option String) (g : GroqCall),
      (¬ (truthyS t = true ∧ truthyS a = true ∧ truthyS d = true) ∨ truthyS k = false ∨
        ∃ st b, g = GroqCall.failure st b) →
      ∃ msg, validateQuizServe t a d k g = errResp msg) ∧
    (∀ (m c ci ui k : Option String) (g : GroqCall),
      (truthyS k = false ∨ ∃ st b, g = GroqCall.failure st b) →
      ∃ msg, aiTutorChatServe m c ci ui k g = errResp msg) ∧
    (∀ (m c ci ui k : Option String) (s : String), truthyS k = true →
      (aiTutorChatServe m c ci ui k (GroqCall.success s)).status = 200) ∧
    (∀ (qs cl : ℚ) (sts : List String) (k : Option String) (g : GroqCall),
      (truthyS k = false ∨ ∃ st b, g = GroqCall.failure st b) →
      ∃ msg, adaptiveFeedbackServe qs cl sts k g = errResp msg) ∧
    (∀ (qs cl : ℚ) (sts : List String) (k : Option String) (s : String), truthyS k = true →
      (adaptiveFeedbackServe qs cl sts k (GroqCall.success s)).status = 200) ∧
    (∀ (t : Option String) (q : ℚ) (rc now : Nat) (k : Option String) (g : GroqCall),
      (truthyS t = false →
        (lessonRecsServe t q rc now k g).status = 500 ∧
        (lessonRecsServe t q rc now k g).error.isSome = true) ∧
      (truthyS t = true →
        (lessonRecsServe t q rc now k g).status = 200 ∧
        (lessonRecsServe t q rc now k g).error = none) ∧
      (truthyS t = true → truthyS k = false →
        lessonRecsServe t q rc now k g = fallbackRecsResp (t.getD "") q rc now) ∧
      (∀ st b, truthyS t = true → truthyS k = true →
        lessonRecsServe t q rc now k (GroqCall.failure st b) =
          fallbackRecsResp (t.getD "") q rc now)) := by
  refine ⟨?_, ?_, ?_, ?_, ?_, ?_, ?_, ?_⟩
  · intro t a d k g hbad
    unfold generateCourseServe
    by_cases hf : truthyS t = true ∧ truthyS a = true ∧ truthyS d = true
    · have hf' : ¬ ¬ (truthyS t = true ∧ truthyS a = true ∧ truthyS d = true) := by simp [hf]
      rw [if_neg hf']
      by_cases hk : truthyS k = true
      · rw [if_neg (by simp [hk])]
        rcases hbad with hbad | hbad | ⟨st, b, rfl⟩
        · exact absurd hf hbad
        · rw [hk] at hbad; cases hbad
        · exact ⟨_, rfl⟩
      · rw [if_pos (by simpa using hk)]
        exact ⟨_, rfl⟩
    · rw [if_pos hf]
      exact ⟨_, rfl⟩
  · intro t a d k g hbad
    unfold roadmapServe
    by_cases hf : truthyS t = true ∧ truthyS a = true ∧ truthyS d = true
    · have hf' : ¬ ¬ (truthyS t = true ∧ truthyS a = true ∧ truthyS d = true) := by simp [hf]
      rw [if_neg hf']
      by_cases hk : truthyS k = true
      · rw [if_neg (by simp [hk])]
        rcases hbad with hbad | hbad | ⟨st, b, rfl⟩
        · exact absurd hf hbad
        · rw [hk] at hbad; cases hbad
        · exact ⟨_, rfl⟩
      · rw [if_pos (by simpa using hk)]
        exact ⟨_, rfl⟩
    · rw [if_pos hf]
      exact ⟨_, rfl⟩
  · intro t a d k g hbad
    unfold validateQuizServe
    by_cases hf : truthyS t = true ∧ truthyS a = true ∧ truthyS d = true
    · have hf' : ¬ ¬ (truthyS t = true ∧ truthyS a = true ∧ truthyS d = true) := by simp [hf]
      rw [if_neg hf']
      by_cases hk : truthyS k = true
      · rw [if_neg (by simp [hk])]
        rcases hbad with hbad | hbad | ⟨st, b, rfl⟩
        · exact absurd hf hbad
        · rw [hk] at hbad; cases hbad
        · exact ⟨_, rfl⟩
      · rw [if_pos (by simpa using hk)]
        exact ⟨_, rfl⟩
    · rw [if_pos hf]
      exact ⟨_, rfl⟩
  · intro m c ci ui k g hbad
    unfold aiTutorChatServe
    by_cases hk : truthyS k = true
    · rw [if_neg (by simp [hk])]
      rcases hbad with hbad | ⟨st, b, rfl⟩
      · rw [hk] at hbad; cases hbad
      · exact ⟨_, rfl⟩
    · rw [if_pos (by simpa using hk)]
      exact ⟨_, rfl⟩
  · intro m c ci ui k s hk
    unfold aiTutorChatServe
    rw [if_neg (by simp [hk])]
  · intro qs cl sts k g hbad
    unfold adaptiveFeedbackServe
    by_cases hk : truthyS k = true
    · rw [if_neg (by simp [hk])]
      rcases hbad with hbad | ⟨st, b, rfl⟩
      · rw [hk] at hbad; cases hbad
      · exact ⟨_, rfl⟩
    · rw [if_pos (by simpa using hk)]
      exact ⟨_, rfl⟩
  · intro qs cl sts k s hk
    unfold adaptiveFeedbackServe
    rw [if_neg (by simp [hk])]
  · intro t q rc now k g
    refine ⟨?_, ?_, ?_, ?_⟩
    · intro ht
      unfold lessonRecsServe
      rw [if_pos (by simp [ht])]
      exact ⟨rfl, rfl⟩
    · intro ht
      unfold lessonRecsServe
      rw [if_neg (by simp [ht])]
      by_cases hk : truthyS k = true
      · rw [if_neg (by simp [hk])]
        cases g with
        | failure st b => exact ⟨rfl, rfl⟩
        | success content =>
          dsimp only
          split
          · split
            · exact ⟨rfl, rfl⟩
            · exact ⟨rfl, rfl⟩
          · exact ⟨rfl, rfl⟩
      · rw [if_pos (by simpa using hk)]
        exact ⟨rfl, rfl⟩
    · intro ht hk
      unfold lessonRecsServe
      rw [if_neg (by simp [ht]), if_pos (by simp [hk])]
    · intro st b ht hk
      unfold lessonRecsServe
      rw [if_neg (by simp [ht]), if_neg (by simp [hk])]

/-- Witness for the amended C5: a concrete missing-field request on
generate-course, a missing-credential tutor chat, a rate-limited adaptive
feedback call, a successful adaptive feedback call, and a
missing-credential recommendation request. -/
theorem claim_C5_hard_failures_witness :
    (¬ (truthyS (none : Option String) = true ∧ truthyS (some "Beginner") = true ∧
        truthyS (some "1-2 hours") = true) ∧
      ∃ msg, generateCourseServe none (some "Beginner") (some "1-2 hours") (some "k")
        (GroqCall.success "x") = errResp msg) ∧
    (truthyS (none : Option String) = false ∧
      ∃ msg, aiTutorChatServe (some "hi") none none none none (GroqCall.success "x") =
        errResp msg) ∧
    (∃ msg, adaptiveFeedbackServe 7 6 [] (some "k") (GroqCall.failure 429 "rate limited") =
      errResp msg) ∧
    (truthyS (some "k") = true ∧
      (adaptiveFeedbackServe 7 6 [] (some "k") (GroqCall.success "x")).status = 200) ∧
    (truthyS (some "T") = true ∧
      (lessonRecsServe (some "T") 5 6 0 none (GroqCall.success "x")).status = 200 ∧
      lessonRecsServe (some "T") 5 6 0 none (GroqCall.success "x") =
        fallbackRecsResp "T" 5 6 0) :=
  ⟨⟨by decide, claim_C5_hard_failures.1 none (some "Beginner") (some "1-2 hours") (some "k")
      (GroqCall.success "x") (Or.inl (by decide))⟩,
   ⟨by decide, claim_C5_hard_failures.2.2.2.1 (some "hi") none none none none
      (GroqCall.success "x") (Or.inl (by decide))⟩,
   claim_C5_hard_failures.2.2.2.2.2.1 7 6 [] (some "k")
     (GroqCall.failure 429 "rate limited") (Or.inr ⟨429, "rate limited", rfl⟩),
   ⟨by decide, claim_C5_hard_failures.2.2.2.2.2.2.1 7 6 [] (some "k") "x" (by decide)⟩,
   ⟨by decide,
    ((claim_C5_hard_failures.2.2.2.2.2.2.2 (some "T") 5 6 0 none
        (GroqCall.success "x")).2.1 (by decide)).1,
    (claim_C5_hard_failures.2.2.2.2.2.2.2 (some "T") 5 6 0 none
        (GroqCall.success "x")).2.2.1 (by decide) (by decide)⟩⟩

/-! ## Claim C6 -/

/-- Counterexample to C6 as stated: through the endpoint's fallback path
(Spanish course, advanced performer) the first returned recommendation has
`relevanceScore` 1.1, outside [0.7, 1.0]; and through the AI path a truthy
non-numeric model score coerces to `NaN`, which escapes the clamp (it is
serialized as `null`), while a numeric string such as "0.9" is used as the
number 0.9, not replaced by a default. -/
theorem claim_C6_counterexample :
    ((lessonRecsServe (some "Spanish") 9 6 0 none (GroqCall.success "x")).recommendations.map
      fun l => l.map RecOut.relevanceScore) =
      some [JsNum.fin 1.1, JsNum.fin 1.0, JsNum.fin 0.75] ∧
    ¬ ((1.1 : ℚ) ≤ 1.0) ∧
    (mapAIRec "C" 0 0 (Json.obj [("relevanceScore", Json.str "abc")])).relevanceScore =
      JsNum.nan ∧
    (mapAIRec "C" 0 0 (Json.obj [("relevanceScore", Json.str "0.9")])).relevanceScore =
      JsNum.fin 0.9 := by
  refine ⟨?_, by norm_num, ?_, ?_⟩
  · have h1 : ((lessonRecsServe (some "Spanish") 9 6 0 none
        (GroqCall.success "x")).recommendations.map
          fun l => l.map RecOut.relevanceScore) =
        some [JsNum.fin ((0.9 : ℚ) + 0.2), JsNum.fin ((0.8 : ℚ) + 0.2), JsNum.fin 0.75] := rfl
    rw [h1]
    norm_num
  · rfl
  · have h2 : (mapAIRec "C" 0 0
        (Json.obj [("relevanceScore", Json.str "0.9")])).relevanceScore =
        JsNum.fin (min (max ((0 : ℚ) + 9 / 10 ^ 1) 0.7) 1.0) := rfl
    rw [h2]
    norm_num

/-- Claim C6 (amended): in the AI path's defaulting map, the difficulty
field is always truthy, with a missing or falsy model-supplied difficulty
becoming exactly the string "Intermediate"; the relevance score (the kept
model value coerced to a number, a falsy or missing one defaulting to 0.8)
is clamped into [0.7, 1.0] whenever its coercion is not NaN, and a NaN
coercion propagates through the clamp unchanged. -/
theorem claim_C6_defaults_clamp (courseTitle : String) (now index : Nat) (rec : Json) :
    jsonTruthy (mapAIRec courseTitle now index rec).difficulty = true ∧
    ((rec.getField "difficulty" = none ∨
      ∃ d, rec.getField "difficulty" = some d ∧ jsonTruthy d = false) →
      (mapAIRec courseTitle now index rec).difficulty = Json.str "Intermediate") ∧
    (jsNumOr (rec.getField "relevanceScore") (JsNum.fin 0.8) ≠ JsNum.nan →
      ∃ r, (mapAIRec courseTitle now index rec).relevanceScore = JsNum.fin r ∧
        (0.7 : ℚ) ≤ r ∧ r ≤ (1.0 : ℚ)) ∧
    (jsNumOr (rec.getField "relevanceScore") (JsNum.fin 0.8) = JsNum.nan →
      (mapAIRec courseTitle now index rec).relevanceScore = JsNum.nan) := by
  refine ⟨?_, ?_, ?_, ?_⟩
  · show jsonTruthy (jsonOr (rec.getField "difficulty") (Json.str "Intermediate")) = true
    cases h : rec.getField "difficulty" with
    | none => decide
    | some v =>
      simp only [jsonOr]
      by_cases hv : jsonTruthy v = true
      · rw [if_pos hv]
        exact hv
      · rw [if_neg hv]
        decide
  · intro h
    show jsonOr (rec.getField "difficulty") (Json.str "Intermediate") = Json.str "Intermediate"
    rcases h with h | ⟨d, hd, hdf⟩
    · rw [h]
      rfl
    · rw [hd]
      simp only [jsonOr]
      rw [if_neg (by simp [hdf])]
  · intro hne
    show ∃ r, jsMin (jsMax (jsNumOr (rec.getField "relevanceScore") (JsNum.fin 0.8))
        (JsNum.fin 0.7)) (JsNum.fin 1.0) = JsNum.fin r ∧ (0.7 : ℚ) ≤ r ∧ r ≤ (1.0 : ℚ)
    cases hv : jsNumOr (rec.getField "relevanceScore") (JsNum.fin 0.8) with
    | nan => exact absurd hv hne
    | posInf => exact ⟨1.0, rfl, by norm_num, le_refl _⟩
    | negInf => exact ⟨min 0.7 1.0, rfl, le_min (le_refl _) (by norm_num), min_le_right _ _⟩
    | fin q =>
      exact ⟨min (max q 0.7) 1.0, rfl,
        le_min (le_max_right _ _) (by norm_num), min_le_right _ _⟩
  · intro hnan
    show jsMin (jsMax (jsNumOr (rec.getField "relevanceScore") (JsNum.fin 0.8))
        (JsNum.fin 0.7)) (JsNum.fin 1.0) = JsNum.nan
    rw [hnan]
    rfl

/-- Witness for the amended C6: a model recommendation with an empty-string
difficulty gets "Intermediate"; a numeric model score of 0.9 stays in the
clamped interval. -/
theorem claim_C6_defaults_clamp_witness :
    ((Json.obj [("difficulty", Json.str ""), ("relevanceScore", Json.num 9 (-1))]).getField
        "difficulty" = some (Json.str "") ∧ jsonTruthy (Json.str "") = false ∧
      (mapAIRec "X" 1 2 (Json.obj [("difficulty", Json.str ""),
        ("relevanceScore", Json.num 9 (-1))])).difficulty = Json.str "Intermediate") ∧
    (jsNumOr ((Json.obj [("difficulty", Json.str ""),
        ("relevanceScore", Json.num 9 (-1))]).getField "relevanceScore")
      (JsNum.fin 0.8) ≠ JsNum.nan ∧
      ∃ r, (mapAIRec "X" 1 2 (Json.obj [("difficulty", Json.str ""),
          ("relevanceScore", Json.num 9 (-1))])).relevanceScore = JsNum.fin r ∧
        (0.7 : ℚ) ≤ r ∧ r ≤ (1.0 : ℚ)) :=
  have hne : jsNumOr ((Json.obj [("difficulty", Json.str ""),
      ("relevanceScore", Json.num 9 (-1))]).getField "relevanceScore")
      (JsNum.fin 0.8) ≠ JsNum.nan := by
    have h : jsNumOr ((Json.obj [("difficulty", Json.str ""),
        ("relevanceScore", Json.num 9 (-1))]).getField "relevanceScore")
        (JsNum.fin 0.8) = JsNum.fin ((9 : ℚ) * 10 ^ (-1 : ℤ)) := rfl
    rw [h]
    simp
  ⟨⟨rfl, rfl,
    (claim_C6_defaults_clamp "X" 1 2 _).2.1 (Or.inr ⟨Json.str "", rfl, rfl⟩)⟩,
   ⟨hne, (claim_C6_defaults_clamp "X" 1 2 _).2.2.1 hne⟩⟩

/-! ## Claim C7 -/

/-- Claim C8: the quiz-score deletion is always the first issued operation;
the course deletion only ever appears after it; and when the quiz-score
deletion fails, the course deletion is never attempted and the state is
unchanged. -/
theorem claim_C8_delete_order (db : DbState) (courseId : String) (failOn : DbOp → Bool) :
    (runDeleteCourse db courseId failOn).2.head? = some (DbOp.delQuizScores courseId) ∧
    (∀ i, (runDeleteCourse db courseId failOn).2.get? i = some (DbOp.delCourse courseId) →
      ∃ j < i, (runDeleteCourse db courseId failOn).2.get? j =
        some (DbOp.delQuizScores courseId)) ∧
    (failOn (DbOp.delQuizScores courseId) = true →
      (runDeleteCourse db courseId failOn).1 = db ∧
      DbOp.delCourse courseId ∉ (runDeleteCourse db courseId failOn).2) := by
  by_cases h1 : failOn (DbOp.delQuizScores courseId)
  · have hrun : runDeleteCourse db courseId failOn =
        (db, [DbOp.delQuizScores courseId]) := by
      unfold runDeleteCourse
      rw [if_pos h1]
    rw [hrun]
    refine ⟨rfl, ?_, fun _ => ⟨rfl, by simp⟩⟩
    intro i hi
    cases i with
    | zero => simp at hi
    | succ n => simp at hi
  · by_cases h2 : failOn (DbOp.delCourse courseId)
    · have hrun : runDeleteCourse db courseId failOn =
          ({ db with quizScores := db.quizScores.filter fun c => c ≠ courseId },
            [DbOp.delQuizScores courseId, DbOp.delCourse courseId]) := by
        unfold runDeleteCourse
        rw [if_neg h1, if_pos h2]
      rw [hrun]
      refine ⟨rfl, ?_, fun hc => absurd hc h1⟩
      intro i hi
      cases i with
      | zero => simp at hi
      | succ n =>
        cases n with
        | zero => exact ⟨0, by omega, rfl⟩
        | succ m => simp at hi
    · have hrun : runDeleteCourse db courseId failOn =
          ({ courses := db.courses.filter fun c => c ≠ courseId
             quizScores := db.quizScores.filter fun c => c ≠ courseId },
            [DbOp.delQuizScores courseId, DbOp.delCourse courseId]) := by
        unfold runDeleteCourse
        rw [if_neg h1, if_neg h2]
      rw [hrun]
      refine ⟨rfl, ?_, fun hc => absurd hc h1⟩
      intro i hi
      cases i with
      | zero => simp at hi
      | succ n =>
        cases n with
        | zero => exact ⟨0, by omega, rfl⟩
        | succ m => simp at hi

/-- Witness for C8: a failing quiz-score deletion leaves the state alone
and never issues the course deletion. -/
theorem claim_C8_delete_order_witness :
    (fun op => decide (op = DbOp.delQuizScores "c1")) (DbOp.delQuizScores "c1") = true ∧
    ((runDeleteCourse ⟨["c1"], ["c1"]⟩ "c1"
        (fun op => decide (op = DbOp.delQuizScores "c1"))).1 = ⟨["c1"], ["c1"]⟩ ∧
      DbOp.delCourse "c1" ∉ (runDeleteCourse ⟨["c1"], ["c1"]⟩ "c1"
        (fun op => decide (op = DbOp.delQuizScores "c1"))).2) :=
  ⟨by decide,
    (claim_C8_delete_order ⟨["c1"], ["c1"]⟩ "c1"
      (fun op => decide (op = DbOp.delQuizScores "c1"))).2.2 (by decide)⟩

/-! ## Claim C9 -/

/-- Claim C9: whenever the AI validation cannot be used (an empty input, an
invocation error, or a thrown exception), the quiz validator returns
exactly the trim-and-lowercase equality of the user's and correct answers. -/
theorem claim_C9_validator_fallback (userAnswer question correctAnswer : String)
    (invoke : InvokeOutcome)
    (h : userAnswer = "" ∨ question = "" ∨ correctAnswer = "" ∨
      invoke = InvokeOutcome.errorRes ∨ invoke = InvokeOutcome.thrownRes) :
    validateAnswerWithAI userAnswer question correctAnswer invoke =
      simpleAnswerCompare userAnswer correctAnswer := by
  unfold validateAnswerWithAI
  rcases h with h | h | h | rfl | rfl
  · simp [h]
  · simp [h]
  · simp [h]
  · by_cases he : userAnswer = "" ∨ question = "" ∨ correctAnswer = "" <;> simp [he]
  · by_cases he : userAnswer = "" ∨ question = "" ∨ correctAnswer = "" <;> simp [he]

/-- Witness for C9: an empty question forces the fallback even though the
invocation would have answered `false`. -/
theorem claim_C9_validator_fallback_witness :
    (("" : String) = "" ∨ False) ∧
    validateAnswerWithAI " Yes" "" "YES " (InvokeOutcome.okRes (some false)) =
      simpleAnswerCompare " Yes" "YES " ∧
    simpleAnswerCompare " Yes" "YES " = true :=
  ⟨Or.inl rfl,
   claim_C9_validator_fallback " Yes" "" "YES " (InvokeOutcome.okRes (some false))
     (Or.inr (Or.inl rfl)),
   by decide⟩

/-! ## Claim C10 -/

/-- Claim C10: each `createCourse` loop persists order columns as the
contiguous 1-based indices of generation order, and a fetch sorted by that
column recovers exactly the generated sequence from any stored permutation
of the rows — for modules, lessons, quiz questions, and resources. -/
theorem claim_C10_order_roundtrip :
    (∀ modules : List ModuleGen,
      (moduleInsertRows modules).map Prod.snd = List.range' 1 modules.length ∧
      ∀ rows, rows.Perm (moduleInsertRows modules) →
        fetchSorted rows = moduleInsertRows modules ∧
        (fetchSorted rows).map Prod.fst = modules) ∧
    (∀ m : ModuleGen,
      (lessonInsertRows m).map Prod.snd = List.range' 1 m.lessons.length ∧
      ∀ rows, rows.Perm (lessonInsertRows m) →
        fetchSorted rows = lessonInsertRows m ∧
        (fetchSorted rows).map Prod.fst = m.lessons) ∧
    (∀ l : LessonGen,
      (quizInsertRows l).map Prod.snd = List.range' 1 l.quiz.length ∧
      ∀ rows, rows.Perm (quizInsertRows l) →
        fetchSorted rows = quizInsertRows l ∧
        (fetchSorted rows).map Prod.fst = l.quiz) ∧
    (∀ l : LessonGen,
      (resourceInsertRows l).map Prod.snd = List.range' 1 l.free_resources.length ∧
      ∀ rows, rows.Perm (resourceInsertRows l) →
        fetchSorted rows = resourceInsertRows l ∧
        (fetchSorted rows).map Prod.fst = l.free_resources) := by
  refine ⟨fun modules => ⟨indexRowsFrom_map_snd modules 1, fun rows hp => ?_⟩,
    fun m => ⟨indexRowsFrom_map_snd m.lessons 1, fun rows hp => ?_⟩,
    fun l => ⟨indexRowsFrom_map_snd l.quiz 1, fun rows hp => ?_⟩,
    fun l => ⟨indexRowsFrom_map_snd l.free_resources 1, fun rows hp => ?_⟩⟩ <;>
  · have he := fetchSorted_indexRows _ rows hp
    refine ⟨he, ?_⟩
    rw [he]
    exact indexRowsFrom_map_fst _ 1

/-- Witness for C10: two modules stored in reversed order are fetched back
in generation order. -/
theorem claim_C10_order_roundtrip_witness :
    ([((⟨"B", []⟩ : ModuleGen), 2), (⟨"A", []⟩, 1)]).Perm
      (moduleInsertRows [⟨"A", []⟩, ⟨"B", []⟩]) ∧
    fetchSorted [((⟨"B", []⟩ : ModuleGen), 2), (⟨"A", []⟩, 1)] =
      moduleInsertRows [⟨"A", []⟩, ⟨"B", []⟩] ∧
    (fetchSorted [((⟨"B", []⟩ : ModuleGen), 2), (⟨"A", []⟩, 1)]).map Prod.fst =
      [⟨"A", []⟩, ⟨"B", []⟩] :=
  ⟨by decide,
    ((claim_C10_order_roundtrip.1 [⟨"A", []⟩, ⟨"B", []⟩]).2
      [((⟨"B", []⟩ : ModuleGen), 2), (⟨"A", []⟩, 1)] (by decide)).1,
    ((claim_C10_order_roundtrip.1 [⟨"A", []⟩, ⟨"B", []⟩]).2
      [((⟨"B", []⟩ : ModuleGen), 2), (⟨"A", []⟩, 1)] (by decide)).2⟩

end CourseFlow
